import Mathlib

/-!
# Task-management backend: the todo controller

A shallow embedding of `server/controllers/todoController.js`: the five request
handlers (`getAllTodos`, `getTodoById`, `createTodo`, `updateTodo`, `deleteTodo`)
over the single JSON document `data/todos.json`, with the JavaScript semantics the
handlers rely on (truthiness, `===`, `||`, `Array.prototype.includes`, `filter`,
`findIndex`, the stable `sort`) made explicit.

The backing file is threaded through every handler as an explicit `Disk` value; the
two ambient inputs of `createTodo` and `updateTodo` (`uuidv4()` and
`new Date().toISOString()`) are explicit arguments; the platform `Date` constructor
used by the due-date comparator is a parameter `dateOf`.

The handlers work on the collection the document holds (`Disk`). The two store
helpers are also embedded on the text of the file (`TextDisk`), with `JSON.parse` and
`JSON.stringify(todos, null, 2)` written out, for the round trip of the store.
-/

namespace Motadata

/-! ## JavaScript values -/

/-- A value of a request-body property after `express.json()`: a JSON value, or
`undefined` when the property is absent. Arrays and objects are kept as one
constructor carrying their JSON text: the controller never looks inside them, every
one of them is truthy, and no two of them are `===` (each parse allocates afresh).
Numbers are integer literals; only their being zero or not is ever observed. -/
inductive JVal where
  | undefined
  | null
  | bool (b : Bool)
  | num (n : Int)
  | str (s : String)
  | object (json : String)
  deriving DecidableEq, Repr

namespace JVal

/-- ECMAScript `ToBoolean`: what `if (v)`, `!v`, `v && e` and `v || e` test. -/
def truthy : JVal → Bool
  | undefined => false
  | null => false
  | bool b => b
  | num n => n != 0
  | str s => s != ""
  | object _ => true

/-- The expression `a || b`. -/
def orElse (a b : JVal) : JVal :=
  if a.truthy then a else b

/-- The string held by a property that validation has restricted to string
literals (`priority`, `status`); see `getString_of_includes`. -/
def getString : JVal → String
  | str s => s
  | _ => ""

end JVal

/-- `xs.includes(v)` for an array literal of strings: `SameValueZero` makes a
string equal to the same string only. -/
def includes (xs : List String) (v : JVal) : Bool :=
  match v with
  | .str s => xs.contains s
  | _ => false

/-- A value of `req.query` as the Express query parser produces it: absent, a
string, or a nested array/object (from repeated or bracketed keys). -/
inductive QVal where
  | undefined
  | str (s : String)
  | nested (json : String)
  deriving DecidableEq, Repr

namespace QVal

/-- `ToBoolean` on a query value: only absent and the empty string are falsy. -/
def truthy : QVal → Bool
  | undefined => false
  | str s => s != ""
  | nested _ => true

/-- The comparison `field === q` of a stored string with a query value. -/
def strictEqStr (field : String) : QVal → Bool
  | str s => field == s
  | _ => false

end QVal

/-! ## Data model -/

/-- A stored task object. `id`, `createdAt` and `updatedAt` are assigned by the
server; `priority` and `status` are only ever stored after `includes` admitted them
or from the prior object, so they are strings; `title`, `description` and `dueDate`
are whatever JSON the request carried (`undefined` for an absent `dueDate`, which
`JSON.stringify` omits). `others` are further own properties of the object, which
only the spread in `updateTodo` touches. -/
structure Todo where
  id : String
  title : JVal
  description : JVal
  dueDate : JVal
  priority : String
  status : String
  createdAt : String
  updatedAt : Option String
  others : List (String × JVal)
  deriving DecidableEq, Repr

/-- The destructured request body of `createTodo` and `updateTodo`; `others` are
the properties the handlers never read. -/
structure Body where
  title : JVal
  description : JVal
  dueDate : JVal
  priority : JVal
  status : JVal
  others : List (String × JVal)
  deriving DecidableEq, Repr

/-- The destructured `req.query` of `getAllTodos`. -/
structure Query where
  status : QVal
  priority : QVal
  sort : QVal
  deriving DecidableEq, Repr

/-! ## The backing document -/

/-- The state of `data/todos.json`. -/
inductive Document where
  | missing
  | garbage (raw : String)
  | tasks (todos : List Todo)
  deriving DecidableEq, Repr

/-- The file system as far as the controller observes it: the document and whether
`fs.writeFile` on it succeeds. -/
structure Disk where
  doc : Document
  writable : Bool
  deriving DecidableEq, Repr

/-- What `readTodos` and `writeTodos` can throw. -/
inductive StorageError where
  | enoent
  | syntaxError (raw : String)
  | eacces
  deriving DecidableEq, Repr

/-- The helper `readTodos` as the handlers see it: the collection that
`JSON.parse` yields from the document. `Document.tasks todos` stands for a document
whose text parses to the array of those task objects; the text itself, with
`JSON.parse` and `JSON.stringify` spelled out, is the subject of `readTodosText` and
`writeTodosText`. -/
def readTodos (d : Disk) : Except StorageError (List Todo) :=
  match d.doc with
  | .missing => .error .enoent
  | .garbage raw => .error (.syntaxError raw)
  | .tasks todos => .ok todos

/-- The helper `writeTodos` as the handlers see it: after a successful
`fs.writeFile` the document holds the collection given (its text is the subject of
`writeTodosText`). A failed save is one that is refused before the file is opened,
such as a permission error, so it leaves the document as it was; a failure after
the file has been truncated is not represented. -/
def writeTodos (d : Disk) (todos : List Todo) : Except StorageError Disk :=
  if d.writable then .ok { d with doc := .tasks todos } else .error .eacces

/-! ## Responses -/

/-- The JSON payload of a response. -/
inductive Payload where
  | list (todos : List Todo)
  | item (todo : Todo)
  | error (msg : String)
  | message (msg : String)
  deriving DecidableEq, Repr

/-- An HTTP response: `res.status(code).json(body)`; `res.json` alone is 200. -/
structure Response where
  status : Nat
  body : Payload
  deriving DecidableEq, Repr

/-! ## Array operations -/

/-- `Array.prototype.findIndex`, with `none` for `-1`. -/
def findIndex {α : Type} (p : α → Bool) : List α → Option Nat
  | [] => none
  | a :: l => if p a then some 0 else (findIndex p l).map (· + 1)

/-- Subtraction of two numbers either of which may be `NaN` (`none`). The operands
are integers (ranks, or time values in milliseconds), so the sign of the result is
exact. -/
def jsSub : Option Int → Option Int → Option Int
  | some a, some b => some (a - b)
  | _, _ => none

/-- Insertion of `a` in front of the first element it does not sort after. A
comparator result of `NaN` counts as `+0`. -/
def insertSorted {α : Type} (cmp : α → α → Option Int) (a : α) : List α → List α
  | [] => [a]
  | b :: l => if (cmp a b).getD 0 ≤ 0 then a :: b :: l else b :: insertSorted cmp a l

/-- `Array.prototype.sort(cmp)`. ECMAScript requires the sort to be stable, and for
a consistent comparator the result is then determined; it is computed here by
insertion from the right, which keeps equal elements in their original order. -/
def sort {α : Type} (cmp : α → α → Option Int) : List α → List α
  | [] => []
  | a :: l => insertSorted cmp a (sort cmp l)

/-- The lookup `priorityOrder[p]` followed by `ToNumber`: the table
`{ high: 1, medium: 2, low: 3 }`, and `NaN` for every other key. -/
def priorityOrder (p : String) : Option Int :=
  if p = "high" then some 1
  else if p = "medium" then some 2
  else if p = "low" then some 3
  else none

/-! ## Handlers -/

/-- The handler `getAllTodos`. `dateOf v` is the time value of `new Date(v)` in
milliseconds, `none` when the date is invalid. -/
def getAllTodos (dateOf : JVal → Option Int) (d : Disk) (q : Query) : Response × Disk :=
  match readTodos d with
  | .error _ => (⟨500, .error "Failed to retrieve todos"⟩, d)
  | .ok todos =>
    let todos := if q.status.truthy then todos.filter (fun todo => q.status.strictEqStr todo.status) else todos
    let todos := if q.priority.truthy then todos.filter (fun todo => q.priority.strictEqStr todo.priority) else todos
    let todos :=
      if q.sort = .str "dueDate" then
        sort (fun a b => jsSub (dateOf a.dueDate) (dateOf b.dueDate)) todos
      else if q.sort = .str "priority" then
        sort (fun a b => jsSub (priorityOrder a.priority) (priorityOrder b.priority)) todos
      else todos
    (⟨200, .list todos⟩, d)

/-- The handler `getTodoById`. -/
def getTodoById (d : Disk) (id : String) : Response × Disk :=
  match readTodos d with
  | .error _ => (⟨500, .error "Failed to retrieve todo"⟩, d)
  | .ok todos =>
    match todos.find? (fun t => t.id == id) with
    | none => (⟨404, .error "Todo not found"⟩, d)
    | some todo => (⟨200, .item todo⟩, d)

/-- The handler `createTodo`; `uuid` is the result of `uuidv4()` and `now` that of
`new Date().toISOString()`. -/
def createTodo (d : Disk) (uuid now : String) (body : Body) : Response × Disk :=
  if !body.title.truthy then
    (⟨400, .error "Title is required"⟩, d)
  else if !includes ["high", "medium", "low"] body.priority then
    (⟨400, .error "Priority must be high, medium, or low"⟩, d)
  else if !includes ["open", "done"] body.status then
    (⟨400, .error "Status must be open or done"⟩, d)
  else
    let newTodo : Todo :=
      { id := uuid
        title := body.title
        description := body.description.orElse (.str "")
        dueDate := body.dueDate
        priority := body.priority.getString
        status := body.status.getString
        createdAt := now
        updatedAt := none
        others := [] }
    match readTodos d with
    | .error _ => (⟨500, .error "Failed to create todo"⟩, d)
    | .ok todos =>
      match writeTodos d (todos ++ [newTodo]) with
      | .error _ => (⟨500, .error "Failed to create todo"⟩, d)
      | .ok d1 => (⟨201, .item newTodo⟩, d1)

/-- The object literal assigned to `todos[index]` in `updateTodo`. -/
def mergeTodo (old : Todo) (now : String) (body : Body) : Todo :=
  { old with
    title := body.title.orElse old.title
    description := if body.description ≠ .undefined then body.description else old.description
    dueDate := body.dueDate.orElse old.dueDate
    priority := (body.priority.orElse (.str old.priority)).getString
    status := (body.status.orElse (.str old.status)).getString
    updatedAt := some now }

/-- The handler `updateTodo`; `id` is `req.params.id` and `now` the result of
`new Date().toISOString()`. -/
def updateTodo (d : Disk) (id now : String) (body : Body) : Response × Disk :=
  match readTodos d with
  | .error _ => (⟨500, .error "Failed to update todo"⟩, d)
  | .ok todos =>
    match findIndex (fun t => t.id == id) todos with
    | none => (⟨404, .error "Todo not found"⟩, d)
    | some index =>
      if body.priority.truthy && !includes ["high", "medium", "low"] body.priority then
        (⟨400, .error "Priority must be high, medium, or low"⟩, d)
      else if body.status.truthy && !includes ["open", "done"] body.status then
        (⟨400, .error "Status must be open or done"⟩, d)
      else
        -- reading `todos[index].title` of an out-of-range slot throws, which the
        -- handler catches
        match todos.get? index with
        | none => (⟨500, .error "Failed to update todo"⟩, d)
        | some old =>
          let updated := mergeTodo old now body
          match writeTodos d (todos.set index updated) with
          | .error _ => (⟨500, .error "Failed to update todo"⟩, d)
          | .ok d1 => (⟨200, .item updated⟩, d1)

/-- The handler `deleteTodo`. -/
def deleteTodo (d : Disk) (id : String) : Response × Disk :=
  match readTodos d with
  | .error _ => (⟨500, .error "Failed to delete todo"⟩, d)
  | .ok todos =>
    let filteredTodos := todos.filter (fun t => t.id != id)
    if filteredTodos.length = todos.length then
      (⟨404, .error "Todo not found"⟩, d)
    else
      match writeTodos d filteredTodos with
      | .error _ => (⟨500, .error "Failed to delete todo"⟩, d)
      | .ok d1 => (⟨200, .message "Todo deleted successfully"⟩, d1)

/-! ## Startup -/

/-- The function `initializeDataFile` of `server.js`: `fs.mkdir` of the data
directory, then `fs.access` of the document, and `fs.writeFile` of
`JSON.stringify([])` when the access throws. `mkdirOk` is whether the recursive
`mkdir` succeeds; `fs.access` throws exactly when the document is missing; an error
of `mkdir` or `writeFile` is caught and logged, leaving the disk as it was. -/
def initializeDataFile (mkdirOk : Bool) (d : Disk) : Disk :=
  if mkdirOk then
    match d.doc with
    | .missing => if d.writable then { d with doc := .tasks [] } else d
    | _ => d
  else d

/-! ## The specification's filter -/

/-- The specification's reading of one criterion: it admits a task field when the
criterion is absent or the empty string (no constraint), or equals the field. -/
def criterionAdmits (c : QVal) (field : String) : Bool :=
  c = .undefined || c = .str "" || c = .str field

/-- The specification's `filter(tasks, criteria)`: the tasks, in order, that both
criteria admit. -/
def specFilter (status priority : QVal) (tasks : List Todo) : List Todo :=
  tasks.filter (fun t => criterionAdmits status t.status && criterionAdmits priority t.priority)

/-! ## The specification's field predicates -/

/-- The specification's "absent or empty" for a text field of a request body. -/
def JVal.isAbsentOrEmpty (v : JVal) : Bool :=
  v = .undefined || v = .str ""

/-- The specification's "present and non-empty" for a text field of a request body. -/
def JVal.isNonEmptyText : JVal → Bool
  | .str s => s != ""
  | _ => false

/-- The specification's enumeration of priorities: high, medium, low. -/
def isPriority (v : JVal) : Bool :=
  v = .str "high" || v = .str "medium" || v = .str "low"

/-- The specification's enumeration of statuses: open, done. -/
def isStatus (v : JVal) : Bool :=
  v = .str "open" || v = .str "done"

/-! ## The specification's invariants -/

/-- The specification's identifier invariant: no two stored tasks share an id. -/
def uniqueIds (todos : List Todo) : Prop :=
  (todos.map (fun t => t.id)).Nodup

instance uniqueIdsDecidable (todos : List Todo) : Decidable (uniqueIds todos) := by
  unfold uniqueIds
  infer_instance

/-- The specification's field invariant on one task: a title that is neither
absent nor empty, a priority among high/medium/low and a status among open/done. -/
def validTodo (t : Todo) : Bool :=
  !t.title.isAbsentOrEmpty && isPriority (.str t.priority) && isStatus (.str t.status)

/-! ## Sample data -/

/-- The `Date` constructor on a numeric time value: `new Date(n)` holds `n` itself
when `n` is within the representable range of 8.64e15 milliseconds around the
epoch, and is invalid otherwise; every other argument is left invalid here. -/
def dateOfNumber : JVal → Option Int
  | .num n => if -8640000000000000 ≤ n ∧ n ≤ 8640000000000000 then some n else none
  | _ => none

/-- A stored task with the given id, priority, status and due date. -/
def sampleTodo (id priority status : String) (dueDate : JVal) : Todo :=
  { id := id
    title := .str "Buy milk"
    description := .str "two litres"
    dueDate := dueDate
    priority := priority
    status := status
    createdAt := "2024-01-01T00:00:00.000Z"
    updatedAt := none
    others := [] }

/-- A stored collection of four tasks. -/
def sampleTodos : List Todo :=
  [sampleTodo "a" "low" "open" (.num 400), sampleTodo "b" "high" "done" (.num 300),
   sampleTodo "c" "medium" "open" (.num 200), sampleTodo "d" "high" "open" (.num 100)]

/-- A disk holding `sampleTodos`. -/
def sampleDisk : Disk :=
  { doc := .tasks sampleTodos, writable := true }

/-- A request body with every property absent. -/
def emptyBody : Body :=
  { title := .undefined, description := .undefined, dueDate := .undefined,
    priority := .undefined, status := .undefined, others := [] }

/-! ## Interleaved requests -/

/-- The object literal `newTodo` that `createTodo` builds from a validated body. -/
def newTodoOf (uuid now : String) (body : Body) : Todo :=
  { id := uuid
    title := body.title
    description := body.description.orElse (.str "")
    dueDate := body.dueDate
    priority := body.priority.getString
    status := body.status.getString
    createdAt := now
    updatedAt := none
    others := [] }

/-- A `createTodo` request in flight: not yet started, suspended between
`await readTodos()` and `await writeTodos(todos)` holding the array it has read and
the task it has built, or finished with its response. -/
inductive CreateState where
  | start (uuid now : String) (body : Body)
  | loaded (todos : List Todo) (newTodo : Todo)
  | responded (r : Response)
  deriving DecidableEq, Repr

/-- One uninterrupted stretch of `createTodo` on the event loop. From `start`:
validation, the construction of `newTodo` and the read of the document. From
`loaded`: the push onto the array read earlier, the write of that array and the
response. Each stretch touches the disk at most once. -/
def createStep (d : Disk) : CreateState → CreateState × Disk
  | .start uuid now body =>
    if !body.title.truthy then
      (.responded ⟨400, .error "Title is required"⟩, d)
    else if !includes ["high", "medium", "low"] body.priority then
      (.responded ⟨400, .error "Priority must be high, medium, or low"⟩, d)
    else if !includes ["open", "done"] body.status then
      (.responded ⟨400, .error "Status must be open or done"⟩, d)
    else
      match readTodos d with
      | .error _ => (.responded ⟨500, .error "Failed to create todo"⟩, d)
      | .ok todos => (.loaded todos (newTodoOf uuid now body), d)
  | .loaded todos newTodo =>
    match writeTodos d (todos ++ [newTodo]) with
    | .error _ => (.responded ⟨500, .error "Failed to create todo"⟩, d)
    | .ok d1 => (.responded ⟨201, .item newTodo⟩, d1)
  | .responded r => (.responded r, d)

/-- Two `createTodo` requests in flight over one disk. -/
structure Race where
  disk : Disk
  first : CreateState
  second : CreateState
  deriving DecidableEq, Repr

/-- Which of the two requests the event loop resumes next. -/
inductive Turn where
  | first
  | second
  deriving DecidableEq, Repr

/-- The event loop resumes one of the two requests for one stretch. -/
def raceStep (s : Race) : Turn → Race
  | .first =>
    { disk := (createStep s.disk s.first).2, first := (createStep s.disk s.first).1,
      second := s.second }
  | .second =>
    { disk := (createStep s.disk s.second).2, first := s.first,
      second := (createStep s.disk s.second).1 }

/-- The two requests run under a schedule. -/
def runRace (s : Race) (schedule : List Turn) : Race :=
  schedule.foldl raceStep s

/-! ## The client form -/

/-- The code points that `String.prototype.trim` strips: ECMAScript white space and
line terminators. -/
def isJsWhiteSpace (c : Char) : Bool :=
  [0x9, 0xA, 0xB, 0xC, 0xD, 0x20, 0xA0, 0x1680, 0x2000, 0x2001, 0x2002, 0x2003, 0x2004,
    0x2005, 0x2006, 0x2007, 0x2008, 0x2009, 0x200A, 0x2028, 0x2029, 0x202F, 0x205F, 0x3000,
    0xFEFF].contains c.toNat

/-- The method `trim`, on the code points of a string. -/
def jsTrim (s : List Char) : List Char :=
  ((s.dropWhile isJsWhiteSpace).reverse.dropWhile isJsWhiteSpace).reverse

/-- The property `length` of a string: its number of UTF-16 code units. -/
def jsLength (s : List Char) : Nat :=
  (s.map (fun c => if c.toNat < 0x10000 then 1 else 2)).sum

/-- The value of the `input` of type `date`: the empty string, or a calendar date
written `YYYY-MM-DD`. -/
inductive DateInput where
  | empty
  | day (year month day : Nat)
  deriving DecidableEq, Repr

/-- The number of days from 1970-01-01 to a date of the proleptic Gregorian
calendar. -/
def daysFromCivil (year month day : Nat) : Int :=
  let y : Int := if month ≤ 2 then (year : Int) - 1 else year
  let era : Int := y / 400
  let yoe : Int := y - era * 400
  let mp : Int := if month ≤ 2 then (month : Int) + 9 else (month : Int) - 3
  let doy : Int := (153 * mp + 2) / 5 + day - 1
  let doe : Int := yoe * 365 + yoe / 4 - yoe / 100 + doy
  era * 146097 + doe - 719468

/-- The time value of `new Date("YYYY-MM-DD")`: ECMAScript reads a date-only string
as midnight UTC of that date. -/
def dateOfDay (year month day : Nat) : Int :=
  daysFromCivil year month day * 86400000

/-- The browser's clock: the current time value in milliseconds and the offset of
local time from UTC in minutes (positive east of Greenwich), taken as constant over
the current day. -/
structure Clock where
  now : Int
  offsetMinutes : Int
  deriving DecidableEq, Repr

/-- The time value of `today` after `today.setHours(0, 0, 0, 0)`: midnight, in local
time, of the current local day. -/
def localMidnight (c : Clock) : Int :=
  (c.now + c.offsetMinutes * 60000) - (c.now + c.offsetMinutes * 60000) % 86400000
    - c.offsetMinutes * 60000

/-- The number of the current local day, counted from 1970-01-01. -/
def localDay (c : Clock) : Int :=
  (c.now + c.offsetMinutes * 60000) / 86400000

/-- The state `formData` of `TodoForm`. -/
structure FormData where
  title : String
  description : String
  dueDate : DateInput
  priority : String
  status : String
  deriving DecidableEq, Repr

/-- The object `newErrors` of `validate`: the message under `title` and the message
under `dueDate`, when present. -/
structure FormErrors where
  title : Option String
  dueDate : Option String
  deriving DecidableEq, Repr

/-- The body of `validate` up to `setErrors(newErrors)`. -/
def validateErrors (c : Clock) (formData : FormData) : FormErrors :=
  { title :=
      if (jsTrim formData.title.toList).isEmpty then some "Title is required"
      else if jsLength (jsTrim formData.title.toList) < 3 then
        some "Title must be at least 3 characters"
      else none
    dueDate :=
      match formData.dueDate with
      | .empty => none
      | .day year month day =>
        if dateOfDay year month day < localMidnight c then
          some "Due date cannot be in the past"
        else none }

/-- The function `validate` of `TodoForm`: whether `newErrors` has no key. -/
def validate (c : Clock) (formData : FormData) : Bool :=
  (validateErrors c formData).title.isNone && (validateErrors c formData).dueDate.isNone

/-! ## The document as text -/

/-- A value as `JSON.parse` builds it from the document's text: `null`, a boolean,
a string, an array, or an object whose properties are kept in property order. A
number literal denotes an IEEE double and is not represented. -/
inductive Json where
  | null
  | bool (b : Bool)
  | str (s : String)
  | arr (items : List Json)
  | obj (props : List (String × Json))

/-- The indentation of a nesting level: that many spaces. -/
def indentOf (n : Nat) : List Char :=
  List.replicate n (Char.ofNat 32)

/-- A hexadecimal digit in lower case. -/
def hexDigit (n : Nat) : Char :=
  if n < 10 then Char.ofNat (48 + n) else Char.ofNat (87 + n)

/-- The text that `JSON.stringify` writes for one code point of a string: the
two-character escapes of the quotation mark, the backslash, backspace, form feed,
line feed, carriage return and tab, a `u00XX` escape for every other control
character, and the code point itself otherwise. -/
def escapeChar (c : Char) : List Char :=
  if c.toNat = 34 then [Char.ofNat 92, Char.ofNat 34]
  else if c.toNat = 92 then [Char.ofNat 92, Char.ofNat 92]
  else if c.toNat = 8 then [Char.ofNat 92, Char.ofNat 98]
  else if c.toNat = 12 then [Char.ofNat 92, Char.ofNat 102]
  else if c.toNat = 10 then [Char.ofNat 92, Char.ofNat 110]
  else if c.toNat = 13 then [Char.ofNat 92, Char.ofNat 114]
  else if c.toNat = 9 then [Char.ofNat 92, Char.ofNat 116]
  else if c.toNat < 32 then
    [Char.ofNat 92, Char.ofNat 117, Char.ofNat 48, Char.ofNat 48,
      hexDigit (c.toNat / 16), hexDigit (c.toNat % 16)]
  else [c]

/-- The escaped code points of a string followed by the closing quotation mark. -/
def quoteChars : List Char → List Char
  | [] => [Char.ofNat 34]
  | c :: cs => escapeChar c ++ quoteChars cs

/-- The text of a string, between quotation marks. -/
def quoteJson (s : String) : List Char :=
  Char.ofNat 34 :: quoteChars s.toList

mutual

/-- The text `JSON.stringify(value, null, 2)` writes for a value nested at the
given indentation: an empty array or object on one line, every element or property
of a non-empty one on a line of its own, two spaces deeper. -/
def stringifyAt (indent : Nat) : Json → List Char
  | .null => "null".toList
  | .bool true => "true".toList
  | .bool false => "false".toList
  | .str s => quoteJson s
  | .arr [] => [Char.ofNat 91, Char.ofNat 93]
  | .arr (x :: xs) =>
    [Char.ofNat 91, Char.ofNat 10] ++ (indentOf (indent + 2) ++ (stringifyAt (indent + 2) x
      ++ (stringifyItems (indent + 2) xs
      ++ (Char.ofNat 10 :: (indentOf indent ++ [Char.ofNat 93])))))
  | .obj [] => [Char.ofNat 123, Char.ofNat 125]
  | .obj ((k, v) :: ps) =>
    [Char.ofNat 123, Char.ofNat 10] ++ (indentOf (indent + 2) ++ (quoteJson k
      ++ ([Char.ofNat 58, Char.ofNat 32] ++ (stringifyAt (indent + 2) v
      ++ (stringifyProps (indent + 2) ps
      ++ (Char.ofNat 10 :: (indentOf indent ++ [Char.ofNat 125])))))))

/-- The text of the elements of an array after the first, each after a comma and
a line break. -/
def stringifyItems (indent : Nat) : List Json → List Char
  | [] => []
  | x :: xs =>
    [Char.ofNat 44, Char.ofNat 10] ++ (indentOf indent ++ (stringifyAt indent x
      ++ stringifyItems indent xs))

/-- The text of the properties of an object after the first, each after a comma
and a line break. -/
def stringifyProps (indent : Nat) : List (String × Json) → List Char
  | [] => []
  | (k, v) :: ps =>
    [Char.ofNat 44, Char.ofNat 10] ++ (indentOf indent ++ (quoteJson k
      ++ ([Char.ofNat 58, Char.ofNat 32] ++ (stringifyAt indent v
      ++ stringifyProps indent ps))))

end

/-- The call `JSON.stringify(todos, null, 2)` of `writeTodos`. -/
def stringify (v : Json) : String :=
  String.mk (stringifyAt 0 v)

mutual

/-- The text `JSON.stringify(value)` writes without an indentation argument: no
white space at all. -/
def compactAt : Json → List Char
  | .null => "null".toList
  | .bool true => "true".toList
  | .bool false => "false".toList
  | .str s => quoteJson s
  | .arr [] => [Char.ofNat 91, Char.ofNat 93]
  | .arr (x :: xs) => Char.ofNat 91 :: (compactAt x ++ (compactItems xs ++ [Char.ofNat 93]))
  | .obj [] => [Char.ofNat 123, Char.ofNat 125]
  | .obj ((k, v) :: ps) =>
    Char.ofNat 123 :: (quoteJson k ++ (Char.ofNat 58 :: (compactAt v
      ++ (compactProps ps ++ [Char.ofNat 125]))))

/-- The compact text of the elements of an array after the first. -/
def compactItems : List Json → List Char
  | [] => []
  | x :: xs => Char.ofNat 44 :: (compactAt x ++ compactItems xs)

/-- The compact text of the properties of an object after the first. -/
def compactProps : List (String × Json) → List Char
  | [] => []
  | (k, v) :: ps =>
    Char.ofNat 44 :: (quoteJson k ++ (Char.ofNat 58 :: (compactAt v ++ compactProps ps)))

end

/-- The call `JSON.stringify(value)`: the compact text of a value. -/
def stringifyCompact (v : Json) : String :=
  String.mk (compactAt v)

/-- JSON white space: space, tab, line feed, carriage return. -/
def isWs (c : Char) : Bool :=
  c.toNat = 32 || c.toNat = 9 || c.toNat = 10 || c.toNat = 13

/-- The input without its leading white space. -/
def skipWs : List Char → List Char
  | [] => []
  | c :: cs => if isWs c then skipWs cs else c :: cs

/-- The input after a literal, when the input starts with it. -/
def dropLiteral : List Char → List Char → Option (List Char)
  | [], input => some input
  | _ :: _, [] => none
  | l :: ls, c :: cs => if l = c then dropLiteral ls cs else none

/-- The value of a hexadecimal digit, in either case. -/
def hexValue (c : Char) : Option Nat :=
  if 48 ≤ c.toNat ∧ c.toNat ≤ 57 then some (c.toNat - 48)
  else if 97 ≤ c.toNat ∧ c.toNat ≤ 102 then some (c.toNat - 87)
  else if 65 ≤ c.toNat ∧ c.toNat ≤ 70 then some (c.toNat - 55)
  else none

/-- Where the reader of a string stands: among ordinary code points, just after a
backslash, or inside a `u` escape with the values of the hexadecimal digits read so
far. -/
inductive StringState where
  | ordinary
  | escaped
  | hex (digits : List Nat)
  deriving DecidableEq, Repr

/-- The code point of a `u` escape from the values of its four hexadecimal digits;
a surrogate code unit, which a code point cannot hold, is not represented. -/
def unicodeEscape (x y z w : Nat) : Option Char :=
  if 55296 ≤ ((x * 16 + y) * 16 + z) * 16 + w ∧ ((x * 16 + y) * 16 + z) * 16 + w ≤ 57343 then
    none
  else some (Char.ofNat (((x * 16 + y) * 16 + z) * 16 + w))

/-- The rest of a string after its opening quotation mark, read one code point at
a time: the code points up to the closing quotation mark, escapes resolved, and
the input after it. A raw control character, an unknown escape and an unterminated
string are syntax errors. -/
def parseStringFrom : StringState → List Char → List Char → Option (List Char × List Char)
  | _, [], _ => none
  | .ordinary, c :: cs, acc =>
    if c.toNat = 34 then some (acc.reverse, cs)
    else if c.toNat = 92 then parseStringFrom .escaped cs acc
    else if c.toNat < 32 then none
    else parseStringFrom .ordinary cs (c :: acc)
  | .escaped, e :: cs, acc =>
    if e.toNat = 34 then parseStringFrom .ordinary cs (Char.ofNat 34 :: acc)
    else if e.toNat = 92 then parseStringFrom .ordinary cs (Char.ofNat 92 :: acc)
    else if e.toNat = 47 then parseStringFrom .ordinary cs (Char.ofNat 47 :: acc)
    else if e.toNat = 98 then parseStringFrom .ordinary cs (Char.ofNat 8 :: acc)
    else if e.toNat = 102 then parseStringFrom .ordinary cs (Char.ofNat 12 :: acc)
    else if e.toNat = 110 then parseStringFrom .ordinary cs (Char.ofNat 10 :: acc)
    else if e.toNat = 114 then parseStringFrom .ordinary cs (Char.ofNat 13 :: acc)
    else if e.toNat = 116 then parseStringFrom .ordinary cs (Char.ofNat 9 :: acc)
    else if e.toNat = 117 then parseStringFrom (.hex []) cs acc
    else none
  | .hex digits, h :: cs, acc =>
    match hexValue h, digits with
    | none, _ => none
    | some w, [x, y, z] =>
      match unicodeEscape x y z w with
      | none => none
      | some u => parseStringFrom .ordinary cs (u :: acc)
    | some w, _ => parseStringFrom (.hex (digits ++ [w])) cs acc

/-- The rest of a string after its opening quotation mark. -/
def parseString (input : List Char) : Option (List Char × List Char) :=
  parseStringFrom .ordinary input []

mutual

/-- One JSON value at the head of the input, after optional white space, and the
input that follows it. The first argument bounds the number of values still to be
read. A number literal is not read. -/
def parseValue : Nat → List Char → Option (Json × List Char)
  | 0, _ => none
  | fuel + 1, input =>
    match skipWs input with
    | [] => none
    | c :: rest =>
      if c.toNat = 110 then (dropLiteral "ull".toList rest).map (fun r => (Json.null, r))
      else if c.toNat = 116 then (dropLiteral "rue".toList rest).map (fun r => (Json.bool true, r))
      else if c.toNat = 102 then
        (dropLiteral "alse".toList rest).map (fun r => (Json.bool false, r))
      else if c.toNat = 34 then
        (parseString rest).map (fun r => (Json.str (String.mk r.1), r.2))
      else if c.toNat = 91 then
        match skipWs rest with
        | [] => none
        | c2 :: rest2 =>
          if c2.toNat = 93 then some (Json.arr [], rest2)
          else (parseElements fuel (c2 :: rest2) []).map (fun r => (Json.arr r.1, r.2))
      else if c.toNat = 123 then
        match skipWs rest with
        | [] => none
        | c2 :: rest2 =>
          if c2.toNat = 125 then some (Json.obj [], rest2)
          else (parseMembers fuel (c2 :: rest2) []).map (fun r => (Json.obj r.1, r.2))
      else none

/-- The elements of a non-empty array up to its closing bracket. -/
def parseElements : Nat → List Char → List Json → Option (List Json × List Char)
  | 0, _, _ => none
  | fuel + 1, input, acc =>
    match parseValue fuel input with
    | none => none
    | some (v, rest) =>
      match skipWs rest with
      | [] => none
      | c :: rest2 =>
        if c.toNat = 44 then parseElements fuel rest2 (v :: acc)
        else if c.toNat = 93 then some ((v :: acc).reverse, rest2)
        else none

/-- The properties of a non-empty object up to its closing brace. -/
def parseMembers : Nat → List Char → List (String × Json) →
    Option (List (String × Json) × List Char)
  | 0, _, _ => none
  | fuel + 1, input, acc =>
    match skipWs input with
    | [] => none
    | c :: rest =>
      if c.toNat = 34 then
        match parseString rest with
        | none => none
        | some (k, rest2) =>
          match skipWs rest2 with
          | [] => none
          | c2 :: rest3 =>
            if c2.toNat = 58 then
              match parseValue fuel rest3 with
              | none => none
              | some (v, rest4) =>
                match skipWs rest4 with
                | [] => none
                | c3 :: rest5 =>
                  if c3.toNat = 44 then parseMembers fuel rest5 ((String.mk k, v) :: acc)
                  else if c3.toNat = 125 then some (((String.mk k, v) :: acc).reverse, rest5)
                  else none
            else none
      else none

end

/-- Whether a property key is made of decimal digits only. Such a key may be an
array index, which an object enumerates before its other keys whatever the order
of the text. -/
def isDigitKey (k : String) : Bool :=
  !k.toList.isEmpty && k.toList.all (fun c => decide (48 ≤ c.toNat ∧ c.toNat ≤ 57))

/-- Whether the keys of an object are pairwise distinct and none is made of digits
only, so that the object's property order is the order of the text. -/
def plainKeys (keys : List String) : Bool :=
  decide keys.Nodup && keys.all (fun k => !isDigitKey k)

mutual

/-- Whether every object of a value has plain keys. -/
def plain : Json → Bool
  | .null => true
  | .bool _ => true
  | .str _ => true
  | .arr items => plainItems items
  | .obj props => plainKeys (propKeys props) && plainProps props

/-- Whether every element is plain. -/
def plainItems : List Json → Bool
  | [] => true
  | x :: xs => plain x && plainItems xs

/-- Whether every property value is plain. -/
def plainProps : List (String × Json) → Bool
  | [] => true
  | (_, v) :: ps => plain v && plainProps ps

/-- The keys of a property list, in order. -/
def propKeys : List (String × Json) → List String
  | [] => []
  | (k, _) :: ps => k :: propKeys ps

end

/-- The call `JSON.parse(data)` of `readTodos`, on the documents this model
represents: one value, white space allowed around it and between its tokens. The
result is `none` for a syntax error and also for a document with a number literal,
a surrogate escape, a repeated key or an all-digit key, which `JSON.parse` accepts
but this model does not represent. -/
def parseJson (data : String) : Option Json :=
  match parseValue (data.toList.length + 1) data.toList with
  | none => none
  | some (v, rest) => if (skipWs rest).isEmpty && plain v then some v else none

mutual

/-- The number of values in a value: itself and the values nested in it. -/
def weight : Json → Nat
  | .null => 1
  | .bool _ => 1
  | .str _ => 1
  | .arr items => 1 + weightItems items
  | .obj props => 1 + weightProps props

/-- The number of values in a list of elements, counting one more per element. -/
def weightItems : List Json → Nat
  | [] => 0
  | x :: xs => 1 + weight x + weightItems xs

/-- The number of values in a list of properties, counting one more per property. -/
def weightProps : List (String × Json) → Nat
  | [] => 0
  | (_, v) :: ps => 1 + weight v + weightProps ps

end

/-- The file system at the level of the document's text: the content of
`data/todos.json`, `none` when the file does not exist, and whether `fs.writeFile`
on it succeeds. -/
structure TextDisk where
  content : Option String
  writable : Bool
  deriving DecidableEq, Repr

/-- The helper `readTodos` on the text of the document: `fs.readFile` followed by
`JSON.parse`. A document that `parseJson` does not represent is reported like a
syntax error. -/
def readTodosText (d : TextDisk) : Except StorageError Json :=
  match d.content with
  | none => .error .enoent
  | some data =>
    match parseJson data with
    | none => .error (.syntaxError data)
    | some todos => .ok todos

/-- The helper `writeTodos` on the text of the document: `fs.writeFile` of
`JSON.stringify(todos, null, 2)`. -/
def writeTodosText (d : TextDisk) (todos : Json) : Except StorageError TextDisk :=
  if d.writable then .ok { d with content := some (stringify todos) } else .error .eacces

/-- A collection of one task, as `createTodo` stores it. -/
def sampleJson : Json :=
  .arr [.obj [("id", .str "a"), ("title", .str "Buy milk"), ("description", .str ""),
    ("priority", .str "high"), ("status", .str "open"),
    ("createdAt", .str "2024-01-01T00:00:00.000Z")]]

/-! ## Filtering -/

theorem strictEqStr_eq_admits (c : QVal) (h : c.truthy = true) (field : String) :
    c.strictEqStr field = criterionAdmits c field := by
  cases c with
  | undefined => simp [QVal.truthy] at h
  | str s =>
    have hs : s ≠ "" := by simpa [QVal.truthy] using h
    by_cases hf : field = s
    · simp [QVal.strictEqStr, criterionAdmits, hf]
    · have hf2 : s ≠ field := fun e => hf e.symm
      simp [QVal.strictEqStr, criterionAdmits, hf, hs, hf2]
  | nested j => simp [QVal.strictEqStr, criterionAdmits]

theorem admits_of_falsy (c : QVal) (h : c.truthy = false) (field : String) :
    criterionAdmits c field = true := by
  cases c with
  | undefined => simp [criterionAdmits]
  | str s =>
    have hs : s = "" := by simpa [QVal.truthy] using h
    simp [criterionAdmits, hs]
  | nested j => simp [QVal.truthy] at h

/-- The two conditional `filter` calls of `getAllTodos` compute the specification's
filter. -/
theorem codeFilter_eq_specFilter (status priority : QVal) (todos : List Todo) :
    (let l := if status.truthy then todos.filter (fun todo => status.strictEqStr todo.status) else todos
     if priority.truthy then l.filter (fun todo => priority.strictEqStr todo.priority) else l)
      = specFilter status priority todos := by
  unfold specFilter
  cases hs : status.truthy <;> cases hp : priority.truthy <;> simp only [if_true, if_false, Bool.false_eq_true]
  · rw [eq_comm, List.filter_eq_self]
    intro t _
    simp [admits_of_falsy _ hs, admits_of_falsy _ hp]
  · apply List.filter_congr
    intro t _
    simp [admits_of_falsy _ hs, strictEqStr_eq_admits _ hp]
  · apply List.filter_congr
    intro t _
    simp [admits_of_falsy _ hp, strictEqStr_eq_admits _ hs]
  · rw [List.filter_filter]
    apply List.filter_congr
    intro t _
    simp [strictEqStr_eq_admits _ hp, strictEqStr_eq_admits _ hs, Bool.and_comm]

/-- Without a sort key `getAllTodos` returns the specification's filter of the
stored tasks and leaves the disk alone. -/
theorem getAllTodos_unsorted (dateOf : JVal → Option Int) (d : Disk) (todos : List Todo)
    (q : Query) (hdoc : d.doc = .tasks todos) (hsort : q.sort = .undefined) :
    getAllTodos dateOf d q = (⟨200, .list (specFilter q.status q.priority todos)⟩, d) := by
  have h := codeFilter_eq_specFilter q.status q.priority todos
  simp only [getAllTodos, readTodos, hdoc, hsort] at h ⊢
  simp [h]

/-- C1: for every stored collection and every status/priority query, the list
operation without a sort key responds 200 with exactly the stored tasks, in stored
order, that the specification's filter keeps: those whose status equals the status
criterion when it is provided and whose priority equals the priority criterion when
it is provided, an absent or empty criterion imposing no constraint. With both
criteria given the result is the tasks satisfying both, with none given it is the
whole collection; the document is not touched. -/
theorem getAllTodos_filter_spec (dateOf : JVal → Option Int) (d : Disk) (todos : List Todo)
    (q : Query) (hdoc : d.doc = .tasks todos) (hsort : q.sort = .undefined) :
    getAllTodos dateOf d q = (⟨200, .list (specFilter q.status q.priority todos)⟩, d)
    ∧ (specFilter q.status q.priority todos).Sublist todos
    ∧ (∀ t, t ∈ specFilter q.status q.priority todos ↔
        t ∈ todos
        ∧ (q.status = .undefined ∨ q.status = .str "" ∨ q.status = .str t.status)
        ∧ (q.priority = .undefined ∨ q.priority = .str "" ∨ q.priority = .str t.priority))
    ∧ (∀ s p, s ≠ "" → p ≠ "" → q.status = .str s → q.priority = .str p →
        specFilter q.status q.priority todos
          = todos.filter (fun t => decide (t.status = s ∧ t.priority = p)))
    ∧ ((q.status = .undefined ∨ q.status = .str "") →
        (q.priority = .undefined ∨ q.priority = .str "") →
        specFilter q.status q.priority todos = todos) := by
  refine ⟨getAllTodos_unsorted dateOf d todos q hdoc hsort, ?_, ?_, ?_, ?_⟩
  · exact List.filter_sublist _
  · intro t
    simp [specFilter, criterionAdmits, or_assoc]
  · intro s p hs hp hqs hqp
    unfold specFilter
    apply List.filter_congr
    intro t _
    simp [criterionAdmits, hqs, hqp, hs, hp, eq_comm]
  · intro hs hp
    unfold specFilter
    rw [List.filter_eq_self]
    intro t _
    rcases hs with hs | hs <;> rcases hp with hp | hp <;> simp [criterionAdmits, hs, hp]

/-- Witness for C1: two stored tasks, filtered by status `done` and priority `high`. -/
theorem getAllTodos_filter_spec_witness :
    getAllTodos (fun _ => none)
      ⟨.tasks [⟨"a", .str "Buy milk", .str "", .undefined, "high", "done", "t0", none, []⟩,
               ⟨"b", .str "Walk dog", .str "", .undefined, "low", "done", "t1", none, []⟩], true⟩
      ⟨.str "done", .str "high", .undefined⟩
    = (⟨200, .list [⟨"a", .str "Buy milk", .str "", .undefined, "high", "done", "t0", none, []⟩]⟩,
       ⟨.tasks [⟨"a", .str "Buy milk", .str "", .undefined, "high", "done", "t0", none, []⟩,
                ⟨"b", .str "Walk dog", .str "", .undefined, "low", "done", "t1", none, []⟩], true⟩) :=
  (getAllTodos_filter_spec (fun _ => none) _ _ ⟨.str "done", .str "high", .undefined⟩ rfl rfl).1.trans
    (by decide)

/-! ## Sorting -/

theorem insertSorted_perm {α : Type} (cmp : α → α → Option Int) (a : α) (l : List α) :
    (insertSorted cmp a l).Perm (a :: l) := by
  induction l with
  | nil => exact List.Perm.refl _
  | cons b l ih =>
    unfold insertSorted
    split
    · exact List.Perm.refl _
    · exact (List.Perm.cons b ih).trans (List.Perm.swap a b l)

theorem sort_perm {α : Type} (cmp : α → α → Option Int) (l : List α) :
    (sort cmp l).Perm l := by
  induction l with
  | nil => exact List.Perm.refl _
  | cons a l ih => exact (insertSorted_perm cmp a (sort cmp l)).trans (List.Perm.cons a ih)

/-- An element that sorts no later than the head of the list is put in front. -/
theorem insertSorted_of_le {α : Type} (cmp : α → α → Option Int) (a : α) (l : List α)
    (h : ∀ b ∈ l, (cmp a b).getD 0 ≤ 0) : insertSorted cmp a l = a :: l := by
  cases l with
  | nil => rfl
  | cons b l =>
    unfold insertSorted
    rw [if_pos (h b (List.mem_cons_self b l))]

/-- An element that sorts after every element of a leading segment passes it. -/
theorem insertSorted_append_of_gt {α : Type} (cmp : α → α → Option Int) (a : α)
    (front l : List α) (h : ∀ b ∈ front, ¬ (cmp a b).getD 0 ≤ 0) :
    insertSorted cmp a (front ++ l) = front ++ insertSorted cmp a l := by
  induction front with
  | nil => rfl
  | cons b front ih =>
    have hb := h b (List.mem_cons_self b front)
    have ih2 := ih (fun c hc => h c (List.mem_cons_of_mem b hc))
    simp only [List.cons_append]
    conv_lhs => unfold insertSorted
    rw [if_neg hb, ih2]

/-- Insertion keeps a list ordered by an integer key when the comparator is the
difference of the keys. -/
theorem insertSorted_pairwise {α : Type} (cmp : α → α → Option Int) (key : α → Int) (a : α)
    (l : List α) (hcmp : ∀ b ∈ l, (cmp a b).getD 0 = key a - key b)
    (hl : l.Pairwise (fun x y => key x ≤ key y)) :
    (insertSorted cmp a l).Pairwise (fun x y => key x ≤ key y) := by
  induction l with
  | nil => simp [insertSorted]
  | cons b l ih =>
    rw [List.pairwise_cons] at hl
    have hb := hcmp b (List.mem_cons_self b l)
    unfold insertSorted
    split
    · next hle =>
      rw [hb] at hle
      have hab : key a ≤ key b := by omega
      refine List.Pairwise.cons ?_ (List.Pairwise.cons hl.1 hl.2)
      intro x hx
      rcases List.mem_cons.mp hx with rfl | hx
      · exact hab
      · exact le_trans hab (hl.1 x hx)
    · next hgt =>
      rw [hb] at hgt
      have hba : key b ≤ key a := by omega
      refine List.Pairwise.cons ?_ (ih (fun c hc => hcmp c (List.mem_cons_of_mem b hc)) hl.2)
      intro x hx
      rcases List.mem_cons.mp ((insertSorted_perm cmp a l).mem_iff.mp hx) with rfl | hx
      · exact hba
      · exact hl.1 x hx

/-- Sorting with a comparator that is the difference of integer keys yields a list
ordered by the key. -/
theorem sort_pairwise {α : Type} (cmp : α → α → Option Int) (key : α → Int) (l : List α)
    (hcmp : ∀ a ∈ l, ∀ b ∈ l, (cmp a b).getD 0 = key a - key b) :
    (sort cmp l).Pairwise (fun x y => key x ≤ key y) := by
  induction l with
  | nil => simp [sort]
  | cons a l ih =>
    have ih2 := ih (fun x hx y hy => hcmp x (List.mem_cons_of_mem a hx) y (List.mem_cons_of_mem a hy))
    refine insertSorted_pairwise cmp key a (sort cmp l) ?_ ih2
    intro b hb
    exact hcmp a (List.mem_cons_self a l) b (List.mem_cons_of_mem a ((sort_perm cmp l).mem_iff.mp hb))

/-- The comparator of the priority sort. -/
theorem priorityCmp_eq (a b : Todo) (x y : Int) (ha : priorityOrder a.priority = some x)
    (hb : priorityOrder b.priority = some y) :
    (jsSub (priorityOrder a.priority) (priorityOrder b.priority)).getD 0 = x - y := by
  rw [ha, hb]; rfl

theorem priorityOrder_of_valid (p : String) (h : p = "high" ∨ p = "medium" ∨ p = "low") :
    ∃ r : Int, priorityOrder p = some r ∧ 1 ≤ r ∧ r ≤ 3
      ∧ (r = 1 ↔ p = "high") ∧ (r = 2 ↔ p = "medium") ∧ (r = 3 ↔ p = "low") := by
  rcases h with h | h | h <;> subst h
  · exact ⟨1, by decide, by decide, by decide, by decide, by decide, by decide⟩
  · exact ⟨2, by decide, by decide, by decide, by decide, by decide, by decide⟩
  · exact ⟨3, by decide, by decide, by decide, by decide, by decide, by decide⟩

/-- On tasks with valid priorities the priority sort lists the high tasks, then the
medium tasks, then the low tasks, each group in its original order. -/
theorem sort_priority_eq (l : List Todo)
    (h : ∀ t ∈ l, t.priority = "high" ∨ t.priority = "medium" ∨ t.priority = "low") :
    sort (fun a b => jsSub (priorityOrder a.priority) (priorityOrder b.priority)) l
      = l.filter (fun t => t.priority == "high")
        ++ (l.filter (fun t => t.priority == "medium")
        ++ l.filter (fun t => t.priority == "low")) := by
  induction l with
  | nil => rfl
  | cons a l ih =>
    have ih2 := ih (fun t ht => h t (List.mem_cons_of_mem a ht))
    have hl : ∀ t ∈ l, t.priority = "high" ∨ t.priority = "medium" ∨ t.priority = "low" :=
      fun t ht => h t (List.mem_cons_of_mem a ht)
    unfold sort
    rw [ih2]
    obtain ⟨ra, hra, -, -, ha1, ha2, ha3⟩ := priorityOrder_of_valid a.priority (h a (List.mem_cons_self a l))
    rcases h a (List.mem_cons_self a l) with hp | hp | hp
    · -- a high task goes to the very front
      have hra1 : ra = 1 := ha1.mpr hp
      rw [insertSorted_of_le]
      · simp [List.filter_cons, hp]
      · intro b hb
        have hbl : b ∈ l := by
          simp only [List.mem_append, List.mem_filter] at hb
          rcases hb with hb | hb | hb <;> exact hb.1
        obtain ⟨rb, hrb, hb1, -⟩ := priorityOrder_of_valid b.priority (hl b hbl)
        rw [priorityCmp_eq a b ra rb hra hrb]
        omega
    · -- a medium task passes the high tasks and stops before the medium ones
      have hra2 : ra = 2 := ha2.mpr hp
      rw [insertSorted_append_of_gt, insertSorted_of_le]
      · simp [List.filter_cons, hp]
      · intro b hb
        have hbb : b ∈ l ∧ (b.priority = "medium" ∨ b.priority = "low") := by
          simp only [List.mem_append, List.mem_filter, beq_iff_eq] at hb
          rcases hb with hb | hb
          · exact ⟨hb.1, Or.inl hb.2⟩
          · exact ⟨hb.1, Or.inr hb.2⟩
        obtain ⟨rb, hrb, -, -, hb1, hb2, hb3⟩ := priorityOrder_of_valid b.priority (hl b hbb.1)
        rw [priorityCmp_eq a b ra rb hra hrb]
        rcases hbb.2 with hq | hq
        · have := hb2.mpr hq; omega
        · have := hb3.mpr hq; omega
      · intro b hb
        simp only [List.mem_filter, beq_iff_eq] at hb
        obtain ⟨rb, hrb, -, -, hb1, -⟩ := priorityOrder_of_valid b.priority (hl b hb.1)
        rw [priorityCmp_eq a b ra rb hra hrb]
        have := hb1.mpr hb.2
        omega
    · -- a low task passes the high and medium tasks and stops before the low ones
      have hra3 : ra = 3 := ha3.mpr hp
      rw [insertSorted_append_of_gt, insertSorted_append_of_gt, insertSorted_of_le]
      · simp [List.filter_cons, hp]
      · intro b hb
        simp only [List.mem_filter, beq_iff_eq] at hb
        obtain ⟨rb, hrb, -, -, -, -, hb3⟩ := priorityOrder_of_valid b.priority (hl b hb.1)
        rw [priorityCmp_eq a b ra rb hra hrb]
        have := hb3.mpr hb.2
        omega
      · intro b hb
        simp only [List.mem_filter, beq_iff_eq] at hb
        obtain ⟨rb, hrb, -, -, -, hb2, -⟩ := priorityOrder_of_valid b.priority (hl b hb.1)
        rw [priorityCmp_eq a b ra rb hra hrb]
        have := hb2.mpr hb.2
        omega
      · intro b hb
        simp only [List.mem_filter, beq_iff_eq] at hb
        obtain ⟨rb, hrb, -, -, hb1, -⟩ := priorityOrder_of_valid b.priority (hl b hb.1)
        rw [priorityCmp_eq a b ra rb hra hrb]
        have := hb1.mpr hb.2
        omega

theorem filter_priority_filter (l : List Todo) (p r : String) :
    (l.filter (fun t => t.priority == r)).filter (fun t => t.priority == p)
      = if p = r then l.filter (fun t => t.priority == r) else [] := by
  split
  · next h =>
    subst h
    rw [List.filter_filter]
    apply List.filter_congr
    intro t _
    simp
  · next h =>
    rw [List.filter_eq_nil_iff]
    intro t ht
    simp only [List.mem_filter, beq_iff_eq] at ht
    simp only [beq_iff_eq]
    intro hp
    exact h (hp.symm.trans ht.2)

/-- C2: for every collection whose tasks all have priority high, medium or low,
listing with sort=priority responds 200 with the filtered tasks arranged as the
high tasks, then the medium tasks, then the low tasks: the result is a permutation
of the filtered tasks in which no medium or low task precedes a high task and no
low task precedes a medium task, and the tasks of any one priority appear in their
stored relative order (the sort is stable). -/
theorem getAllTodos_sort_priority (dateOf : JVal → Option Int) (d : Disk) (todos : List Todo)
    (q : Query) (hdoc : d.doc = .tasks todos) (hsort : q.sort = .str "priority")
    (hvalid : ∀ t ∈ todos, t.priority = "high" ∨ t.priority = "medium" ∨ t.priority = "low") :
    ∃ result : List Todo,
      getAllTodos dateOf d q = (⟨200, .list result⟩, d)
      ∧ result = (specFilter q.status q.priority todos).filter (fun t => t.priority == "high")
          ++ ((specFilter q.status q.priority todos).filter (fun t => t.priority == "medium")
          ++ (specFilter q.status q.priority todos).filter (fun t => t.priority == "low"))
      ∧ result.Perm (specFilter q.status q.priority todos)
      ∧ result.Pairwise (fun a b =>
          ¬ (a.priority = "medium" ∧ b.priority = "high")
          ∧ ¬ (a.priority = "low" ∧ b.priority = "high")
          ∧ ¬ (a.priority = "low" ∧ b.priority = "medium"))
      ∧ ∀ p : String, result.filter (fun t => t.priority == p)
          = (specFilter q.status q.priority todos).filter (fun t => t.priority == p) := by
  have hF : ∀ t ∈ specFilter q.status q.priority todos,
      t.priority = "high" ∨ t.priority = "medium" ∨ t.priority = "low" :=
    fun t ht => hvalid t (List.mem_filter.mp ht).1
  have hsorted := sort_priority_eq _ hF
  refine ⟨sort (fun a b => jsSub (priorityOrder a.priority) (priorityOrder b.priority))
    (specFilter q.status q.priority todos), ?_, hsorted, sort_perm _ _, ?_, ?_⟩
  · have h := codeFilter_eq_specFilter q.status q.priority todos
    simp only [getAllTodos, readTodos, hdoc, hsort] at h ⊢
    simp [h]
  · have hkey := sort_pairwise (fun a b : Todo => jsSub (priorityOrder a.priority) (priorityOrder b.priority))
      (fun t => (priorityOrder t.priority).getD 0) (specFilter q.status q.priority todos) (by
        intro a ha b hb
        obtain ⟨ra, hra, -⟩ := priorityOrder_of_valid a.priority (hF a ha)
        obtain ⟨rb, hrb, -⟩ := priorityOrder_of_valid b.priority (hF b hb)
        rw [priorityCmp_eq a b ra rb hra hrb]
        simp only [hra, hrb, Option.getD_some])
    refine List.Pairwise.imp_of_mem ?_ hkey
    intro a b ha hb hab
    have ha2 := hF a ((sort_perm _ _).mem_iff.mp ha)
    have hb2 := hF b ((sort_perm _ _).mem_iff.mp hb)
    obtain ⟨ra, hra, -, -, ha1, ha2, ha3⟩ := priorityOrder_of_valid a.priority ha2
    obtain ⟨rb, hrb, -, -, hb1, hb2, hb3⟩ := priorityOrder_of_valid b.priority hb2
    simp only [hra, hrb, Option.getD_some] at hab
    refine ⟨?_, ?_, ?_⟩
    · rintro ⟨h1, h2⟩
      have := ha2.mpr h1; have := hb1.mpr h2; omega
    · rintro ⟨h1, h2⟩
      have := ha3.mpr h1; have := hb1.mpr h2; omega
    · rintro ⟨h1, h2⟩
      have := ha3.mpr h1; have := hb2.mpr h2; omega
  · intro p
    rw [hsorted, List.filter_append, List.filter_append, filter_priority_filter,
      filter_priority_filter, filter_priority_filter]
    by_cases h1 : p = "high"
    · subst h1; simp
    · by_cases h2 : p = "medium"
      · subst h2; simp
      · by_cases h3 : p = "low"
        · subst h3; simp
        · simp only [h1, h2, h3, if_false, List.append_nil]
          rw [eq_comm, List.filter_eq_nil_iff]
          intro t ht
          simp only [beq_iff_eq]
          rcases hF t ht with h | h | h <;> rw [h] <;> exact fun e => by simp_all

/-- Witness for C2: the four sample tasks (low, high, medium, high) sorted by
priority come out as high `b`, high `d`, medium `c`, low `a`. -/
theorem getAllTodos_sort_priority_witness :
    ∃ result : List Todo,
      getAllTodos dateOfNumber sampleDisk ⟨.undefined, .undefined, .str "priority"⟩
        = (⟨200, .list result⟩, sampleDisk)
      ∧ result = [sampleTodo "b" "high" "done" (.num 300), sampleTodo "d" "high" "open" (.num 100),
          sampleTodo "c" "medium" "open" (.num 200), sampleTodo "a" "low" "open" (.num 400)] := by
  obtain ⟨result, h1, h2, -⟩ := getAllTodos_sort_priority dateOfNumber sampleDisk sampleTodos
    ⟨.undefined, .undefined, .str "priority"⟩ rfl rfl (by decide)
  exact ⟨result, h1, h2.trans (by decide)⟩

/-- C3: for every collection in which every task has a valid due date, listing with
sort=dueDate responds 200 with a permutation of the filtered tasks in ascending
order of their due-date instants: every adjacent pair, and indeed every pair, of
the result has the earlier element due no later than the later one. -/
theorem getAllTodos_sort_dueDate (dateOf : JVal → Option Int) (d : Disk) (todos : List Todo)
    (q : Query) (hdoc : d.doc = .tasks todos) (hsort : q.sort = .str "dueDate")
    (hvalid : ∀ t ∈ todos, ∃ ms : Int, dateOf t.dueDate = some ms) :
    ∃ result : List Todo,
      getAllTodos dateOf d q = (⟨200, .list result⟩, d)
      ∧ result.Perm (specFilter q.status q.priority todos)
      ∧ result.Chain' (fun a b =>
          ∃ x y : Int, dateOf a.dueDate = some x ∧ dateOf b.dueDate = some y ∧ x ≤ y)
      ∧ result.Pairwise (fun a b =>
          ∃ x y : Int, dateOf a.dueDate = some x ∧ dateOf b.dueDate = some y ∧ x ≤ y) := by
  have hF : ∀ t ∈ specFilter q.status q.priority todos, ∃ ms : Int, dateOf t.dueDate = some ms :=
    fun t ht => hvalid t (List.mem_filter.mp ht).1
  have hpair : (sort (fun a b : Todo => jsSub (dateOf a.dueDate) (dateOf b.dueDate))
      (specFilter q.status q.priority todos)).Pairwise (fun a b =>
        ∃ x y : Int, dateOf a.dueDate = some x ∧ dateOf b.dueDate = some y ∧ x ≤ y) := by
    have hkey := sort_pairwise (fun a b : Todo => jsSub (dateOf a.dueDate) (dateOf b.dueDate))
      (fun t => (dateOf t.dueDate).getD 0) (specFilter q.status q.priority todos) (by
        intro a ha b hb
        obtain ⟨x, hx⟩ := hF a ha
        obtain ⟨y, hy⟩ := hF b hb
        simp only [hx, hy, jsSub, Option.getD_some])
    refine List.Pairwise.imp_of_mem ?_ hkey
    intro a b ha hb hab
    obtain ⟨x, hx⟩ := hF a ((sort_perm _ _).mem_iff.mp ha)
    obtain ⟨y, hy⟩ := hF b ((sort_perm _ _).mem_iff.mp hb)
    simp only [hx, hy, Option.getD_some] at hab
    exact ⟨x, y, hx, hy, hab⟩
  refine ⟨_, ?_, sort_perm _ _, hpair.chain', hpair⟩
  have h := codeFilter_eq_specFilter q.status q.priority todos
  simp only [getAllTodos, readTodos, hdoc, hsort] at h ⊢
  simp [h]

/-- Witness for C3: the four sample tasks, due at 400, 300, 200 and 100, sorted by
due date. -/
theorem getAllTodos_sort_dueDate_witness :
    ∃ result : List Todo,
      getAllTodos dateOfNumber sampleDisk ⟨.undefined, .undefined, .str "dueDate"⟩
        = (⟨200, .list result⟩, sampleDisk)
      ∧ result.Perm (specFilter .undefined .undefined sampleTodos)
      ∧ result.Chain' (fun a b =>
          ∃ x y : Int, dateOfNumber a.dueDate = some x ∧ dateOfNumber b.dueDate = some y ∧ x ≤ y)
      ∧ result.Pairwise (fun a b =>
          ∃ x y : Int, dateOfNumber a.dueDate = some x ∧ dateOfNumber b.dueDate = some y ∧ x ≤ y) :=
  getAllTodos_sort_dueDate dateOfNumber sampleDisk sampleTodos
    ⟨.undefined, .undefined, .str "dueDate"⟩ rfl rfl (by
      intro t ht
      simp only [sampleTodos, List.mem_cons, List.mem_singleton, List.not_mem_nil, or_false] at ht
      rcases ht with rfl | rfl | rfl | rfl
      · exact ⟨400, by decide⟩
      · exact ⟨300, by decide⟩
      · exact ⟨200, by decide⟩
      · exact ⟨100, by decide⟩)

/-! ## Validation -/

theorem includes_priority_iff (v : JVal) :
    includes ["high", "medium", "low"] v = isPriority v := by
  cases v <;> simp [includes, isPriority, Bool.or_assoc]

theorem includes_status_iff (v : JVal) :
    includes ["open", "done"] v = isStatus v := by
  cases v <;> simp [includes, isStatus, Bool.or_assoc]

theorem isPriority_eq_str (v : JVal) (h : isPriority v = true) : v = .str v.getString := by
  simp only [isPriority, Bool.or_eq_true, decide_eq_true_eq] at h
  rcases h with (h | h) | h <;> subst h <;> rfl

theorem isStatus_eq_str (v : JVal) (h : isStatus v = true) : v = .str v.getString := by
  simp only [isStatus, Bool.or_eq_true, decide_eq_true_eq] at h
  rcases h with h | h <;> subst h <;> rfl

/-- A validated property is a string, so `getString` loses nothing. -/
theorem getString_of_includes (xs : List String) (v : JVal) (h : includes xs v = true) :
    v = .str v.getString := by
  cases v <;> simp_all [includes, JVal.getString]

theorem truthy_of_isNonEmptyText (v : JVal) (h : v.isNonEmptyText = true) : v.truthy = true := by
  cases v <;> simp_all [JVal.isNonEmptyText, JVal.truthy]

theorem falsy_of_isAbsentOrEmpty (v : JVal) (h : v.isAbsentOrEmpty = true) : v.truthy = false := by
  simp only [JVal.isAbsentOrEmpty, Bool.or_eq_true, decide_eq_true_eq] at h
  rcases h with h | h <;> subst h <;> rfl

/-- On a text-or-absent property, falsy is exactly "absent or empty". -/
theorem isAbsentOrEmpty_iff_falsy (v : JVal)
    (h : v.isAbsentOrEmpty = true ∨ v.isNonEmptyText = true) :
    v.isAbsentOrEmpty = true ↔ v.truthy = false := by
  constructor
  · exact falsy_of_isAbsentOrEmpty v
  · intro hf
    rcases h with h | h
    · exact h
    · rw [truthy_of_isNonEmptyText v h] at hf
      exact absurd hf (by decide)

/-! ## createTodo -/

/-- The outcome of `createTodo` on a body that fails validation. -/
theorem createTodo_invalid (d : Disk) (uuid now : String) (body : Body)
    (h : body.title.truthy = false ∨ isPriority body.priority = false
      ∨ isStatus body.status = false) :
    ∃ msg : String, createTodo d uuid now body = (⟨400, .error msg⟩, d) := by
  unfold createTodo
  rw [includes_priority_iff, includes_status_iff]
  cases ht : body.title.truthy
  · exact ⟨_, rfl⟩
  · cases hp : isPriority body.priority
    · exact ⟨_, rfl⟩
    · cases hs : isStatus body.status
      · exact ⟨_, rfl⟩
      · simp [ht, hp, hs] at h

/-- The task object that `createTodo` builds from a body. -/
theorem createTodo_valid (d : Disk) (uuid now : String) (body : Body)
    (ht : body.title.truthy = true) (hp : isPriority body.priority = true)
    (hs : isStatus body.status = true) :
    createTodo d uuid now body =
      (match readTodos d with
        | .error _ => (⟨500, .error "Failed to create todo"⟩, d)
        | .ok todos =>
          match writeTodos d (todos ++ [⟨uuid, body.title, body.description.orElse (.str ""),
              body.dueDate, body.priority.getString, body.status.getString, now, none, []⟩]) with
          | .error _ => (⟨500, .error "Failed to create todo"⟩, d)
          | .ok d1 => (⟨201, .item ⟨uuid, body.title, body.description.orElse (.str ""),
              body.dueDate, body.priority.getString, body.status.getString, now, none, []⟩⟩, d1)) := by
  unfold createTodo
  rw [includes_priority_iff, includes_status_iff]
  simp [ht, hp, hs]

theorem createTodo_valid_status_ne_400 (d : Disk) (uuid now : String) (body : Body)
    (ht : body.title.truthy = true) (hp : isPriority body.priority = true)
    (hs : isStatus body.status = true) :
    (createTodo d uuid now body).1.status ≠ 400 := by
  rw [createTodo_valid d uuid now body ht hp hs]
  cases hr : readTodos d with
  | error e => simp
  | ok todos =>
    simp only []
    cases hw : writeTodos d (todos ++ [⟨uuid, body.title, body.description.orElse (.str ""),
        body.dueDate, body.priority.getString, body.status.getString, now, none, []⟩]) with
    | error e => simp
    | ok d1 => simp

/-- The falsy values of a body property: absent, `null`, `false`, `0` and the empty
string. -/
theorem truthy_false_iff (v : JVal) :
    v.truthy = false ↔
      (v = .undefined ∨ v = .null ∨ v = .bool false ∨ v = .num 0 ∨ v = .str "") := by
  cases v <;> simp [JVal.truthy]

/-- Counterexample to C4 as stated: the body with title `0`, priority "high" and
status "open" has a title that is present and is not the empty string, and a valid
priority and status, yet createTodo responds 400 with "Title is required" and
leaves the document alone. -/
theorem createTodo_rejects_zero_title :
    ({ emptyBody with title := .num 0, priority := .str "high", status := .str "open" } : Body).title
        ≠ .undefined
    ∧ ({ emptyBody with title := .num 0, priority := .str "high", status := .str "open" } : Body).title
        ≠ .str ""
    ∧ JVal.isAbsentOrEmpty (.num 0) = false
    ∧ isPriority (.str "high") = true
    ∧ isStatus (.str "open") = true
    ∧ createTodo sampleDisk "u1" "2024-02-02T00:00:00.000Z"
        { emptyBody with title := .num 0, priority := .str "high", status := .str "open" }
      = (⟨400, .error "Title is required"⟩, sampleDisk) := by
  decide

/-- C4 (amended): for every create input, whatever the state of the document,
createTodo responds 400 if and only if the title is falsy, that is absent, `null`,
`false`, `0` or the empty string, or the priority is not one of high/medium/low, or
the status is not one of open/done; the 400 response carries an error message and
leaves the disk as it was; when the title is a text or absent the title condition
is exactly "absent or empty"; and any non-empty title, however short and even if
only whitespace, is accepted when priority and status are valid. -/
theorem createTodo_rejects_iff (d : Disk) (uuid now : String) (body : Body) :
    ((createTodo d uuid now body).1.status = 400 ↔
      (body.title.truthy = false ∨ isPriority body.priority = false
        ∨ isStatus body.status = false))
    ∧ ((createTodo d uuid now body).1.status = 400 ↔
      ((body.title = .undefined ∨ body.title = .null ∨ body.title = .bool false
          ∨ body.title = .num 0 ∨ body.title = .str "")
        ∨ isPriority body.priority = false ∨ isStatus body.status = false))
    ∧ ((body.title.isAbsentOrEmpty = true ∨ body.title.isNonEmptyText = true) →
        ((createTodo d uuid now body).1.status = 400 ↔
          (body.title.isAbsentOrEmpty = true ∨ isPriority body.priority = false
            ∨ isStatus body.status = false)))
    ∧ ((createTodo d uuid now body).1.status = 400 →
        ∃ msg : String, createTodo d uuid now body = (⟨400, .error msg⟩, d))
    ∧ (body.title.isNonEmptyText = true → isPriority body.priority = true →
        isStatus body.status = true → (createTodo d uuid now body).1.status ≠ 400) := by
  have key : (createTodo d uuid now body).1.status = 400 ↔
      (body.title.truthy = false ∨ isPriority body.priority = false
        ∨ isStatus body.status = false) := by
    constructor
    · intro h400
      by_contra hcon
      simp only [not_or, Bool.not_eq_false] at hcon
      exact createTodo_valid_status_ne_400 d uuid now body hcon.1 hcon.2.1 hcon.2.2 h400
    · intro h
      obtain ⟨msg, hmsg⟩ := createTodo_invalid d uuid now body h
      rw [hmsg]
  refine ⟨key, ?_, ?_, ?_, ?_⟩
  · rw [key, truthy_false_iff]
  · intro htitle
    rw [key, isAbsentOrEmpty_iff_falsy body.title htitle]
  · intro h400
    exact createTodo_invalid d uuid now body (key.mp h400)
  · intro ht hp hs
    exact createTodo_valid_status_ne_400 d uuid now body (truthy_of_isNonEmptyText _ ht) hp hs

/-- Witness for C4 (amended): a title of two blanks with valid priority and status
is not rejected. -/
theorem createTodo_rejects_iff_witness :
    (createTodo sampleDisk "u1" "2024-02-02T00:00:00.000Z"
      { emptyBody with title := .str "  ", priority := .str "low", status := .str "open" }).1.status
      ≠ 400 :=
  (createTodo_rejects_iff sampleDisk "u1" "2024-02-02T00:00:00.000Z"
    { emptyBody with title := .str "  ", priority := .str "low", status := .str "open" }).2.2.2.2
    (by decide) (by decide) (by decide)

/-- The outcome of `createTodo` on a valid body over a readable, writable document. -/
theorem createTodo_ok (d : Disk) (todos : List Todo) (uuid now : String) (body : Body)
    (hdoc : d.doc = .tasks todos) (hw : d.writable = true)
    (ht : body.title.truthy = true) (hp : isPriority body.priority = true)
    (hs : isStatus body.status = true) :
    createTodo d uuid now body =
      (⟨201, .item ⟨uuid, body.title, body.description.orElse (.str ""), body.dueDate,
          body.priority.getString, body.status.getString, now, none, []⟩⟩,
        { d with doc := .tasks (todos ++ [⟨uuid, body.title, body.description.orElse (.str ""),
          body.dueDate, body.priority.getString, body.status.getString, now, none, []⟩]) }) := by
  rw [createTodo_valid d uuid now body ht hp hs]
  simp [readTodos, writeTodos, hdoc, hw]

/-- C5: for every valid create input (a truthy title, which covers every non-empty
text, a priority among high/medium/low and a status among open/done) over a
readable and writable document, createTodo responds 201 with a task whose title,
dueDate, priority and status are the input's, whose description is the input's
description when that is a text (or any truthy value) and the empty string when it
is absent, whose id is the generated identifier and whose createdAt is the current
time, and which carries no updatedAt and no further property. -/
theorem createTodo_created (d : Disk) (todos : List Todo) (uuid now : String) (body : Body)
    (hdoc : d.doc = .tasks todos) (hw : d.writable = true)
    (ht : body.title.truthy = true) (hp : isPriority body.priority = true)
    (hs : isStatus body.status = true) :
    ∃ t : Todo,
      (createTodo d uuid now body).1 = ⟨201, .item t⟩
      ∧ t.title = body.title
      ∧ t.dueDate = body.dueDate
      ∧ JVal.str t.priority = body.priority
      ∧ JVal.str t.status = body.status
      ∧ (body.description = .undefined → t.description = .str "")
      ∧ (∀ s : String, body.description = .str s → t.description = .str s)
      ∧ (body.description.truthy = true → t.description = body.description)
      ∧ t.id = uuid
      ∧ t.createdAt = now
      ∧ t.updatedAt = none
      ∧ t.others = [] := by
  refine ⟨⟨uuid, body.title, body.description.orElse (.str ""), body.dueDate,
    body.priority.getString, body.status.getString, now, none, []⟩, ?_, rfl, rfl, ?_, ?_, ?_, ?_,
    ?_, rfl, rfl, rfl, rfl⟩
  · rw [createTodo_ok d todos uuid now body hdoc hw ht hp hs]
  · exact (isPriority_eq_str _ hp).symm
  · exact (isStatus_eq_str _ hs).symm
  · intro h
    simp [h, JVal.orElse, JVal.truthy]
  · intro s h
    by_cases hs : s = ""
    · simp [h, hs, JVal.orElse, JVal.truthy]
    · simp [h, hs, JVal.orElse, JVal.truthy]
  · intro h
    simp [h, JVal.orElse]

/-- Witness for C5: creating "Buy milk" without a description on the sample disk. -/
theorem createTodo_created_witness :
    ∃ t : Todo,
      (createTodo sampleDisk "u1" "2024-02-02T00:00:00.000Z"
        { emptyBody with title := .str "Buy milk", priority := .str "high", status := .str "open" }).1
        = ⟨201, .item t⟩
      ∧ t = ⟨"u1", .str "Buy milk", .str "", .undefined, "high", "open",
          "2024-02-02T00:00:00.000Z", none, []⟩ := by
  obtain ⟨t, h1, -⟩ := createTodo_created sampleDisk sampleTodos "u1" "2024-02-02T00:00:00.000Z"
    { emptyBody with title := .str "Buy milk", priority := .str "high", status := .str "open" }
    rfl rfl (by decide) (by decide) (by decide)
  refine ⟨t, h1, ?_⟩
  have h2 : (createTodo sampleDisk "u1" "2024-02-02T00:00:00.000Z"
      { emptyBody with title := .str "Buy milk", priority := .str "high", status := .str "open" }).1
      = ⟨201, .item ⟨"u1", .str "Buy milk", .str "", .undefined, "high", "open",
          "2024-02-02T00:00:00.000Z", none, []⟩⟩ := by decide
  rw [h1] at h2
  injection h2 with _ h3
  injection h3

/-- C6: for every stored collection and every valid create input, after createTodo
succeeds the stored collection is the previous collection with the returned task
appended as its last element: the length grows by one and the prior tasks are an
unchanged leading segment; the returned task then appears in the unfiltered list
fetch, which returns the whole new collection, and in the list fetch filtered by
the task's own priority. -/
theorem createTodo_appends (d : Disk) (todos : List Todo) (uuid now : String) (body : Body)
    (hdoc : d.doc = .tasks todos) (hw : d.writable = true)
    (ht : body.title.truthy = true) (hp : isPriority body.priority = true)
    (hs : isStatus body.status = true) :
    ∃ t : Todo,
      createTodo d uuid now body = (⟨201, .item t⟩, { d with doc := .tasks (todos ++ [t]) })
      ∧ (todos ++ [t]).length = todos.length + 1
      ∧ (todos ++ [t]).take todos.length = todos
      ∧ (todos ++ [t]).getLast? = some t
      ∧ (∀ dateOf : JVal → Option Int,
          getAllTodos dateOf (createTodo d uuid now body).2 ⟨.undefined, .undefined, .undefined⟩
            = (⟨200, .list (todos ++ [t])⟩, (createTodo d uuid now body).2))
      ∧ (∀ dateOf : JVal → Option Int, ∃ listed : List Todo,
          getAllTodos dateOf (createTodo d uuid now body).2 ⟨.undefined, .str t.priority, .undefined⟩
            = (⟨200, .list listed⟩, (createTodo d uuid now body).2)
          ∧ t ∈ listed) := by
  have hok := createTodo_ok d todos uuid now body hdoc hw ht hp hs
  refine ⟨⟨uuid, body.title, body.description.orElse (.str ""), body.dueDate,
    body.priority.getString, body.status.getString, now, none, []⟩, hok, by simp, by simp,
    by simp, ?_, ?_⟩
  · intro dateOf
    rw [hok]
    rw [getAllTodos_unsorted dateOf _ _ ⟨.undefined, .undefined, .undefined⟩ rfl rfl]
    simp [specFilter, criterionAdmits]
  · intro dateOf
    rw [hok]
    refine ⟨_, getAllTodos_unsorted dateOf _ _ ⟨.undefined, .str _, .undefined⟩ rfl rfl, ?_⟩
    simp [specFilter, criterionAdmits]

/-- Witness for C6: creating "Buy milk" on the sample disk appends it as the fifth
task. -/
theorem createTodo_appends_witness :
    ∃ t : Todo,
      createTodo sampleDisk "u1" "2024-02-02T00:00:00.000Z"
        { emptyBody with title := .str "Buy milk", priority := .str "high", status := .str "open" }
        = (⟨201, .item t⟩, { sampleDisk with doc := .tasks (sampleTodos ++ [t]) })
      ∧ (sampleTodos ++ [t]).length = sampleTodos.length + 1 := by
  obtain ⟨t, h1, h2, -⟩ := createTodo_appends sampleDisk sampleTodos "u1" "2024-02-02T00:00:00.000Z"
    { emptyBody with title := .str "Buy milk", priority := .str "high", status := .str "open" }
    rfl rfl (by decide) (by decide) (by decide)
  exact ⟨t, h1, h2⟩

/-- C7: for every document and every create input that fails validation (a falsy
title, which covers a missing or empty one, or a priority outside high/medium/low,
or a status outside open/done), createTodo responds 400 with an error message,
creates no record and leaves the document unchanged, so every subsequent list
fetch answers exactly as it did before. -/
theorem createTodo_invalid_unchanged (d : Disk) (uuid now : String) (body : Body)
    (h : body.title.truthy = false ∨ isPriority body.priority = false
      ∨ isStatus body.status = false) :
    (createTodo d uuid now body).1.status = 400
    ∧ (∃ msg : String, (createTodo d uuid now body).1.body = .error msg)
    ∧ (createTodo d uuid now body).2 = d
    ∧ (∀ todos : List Todo, d.doc = .tasks todos →
        (createTodo d uuid now body).2.doc = .tasks todos)
    ∧ (∀ (dateOf : JVal → Option Int) (q : Query),
        getAllTodos dateOf (createTodo d uuid now body).2 q = getAllTodos dateOf d q) := by
  obtain ⟨msg, hmsg⟩ := createTodo_invalid d uuid now body h
  rw [hmsg]
  exact ⟨rfl, ⟨msg, rfl⟩, rfl, fun _ hd => hd, fun _ _ => rfl⟩

/-- Witness for C7: a body without a title on the sample disk. -/
theorem createTodo_invalid_unchanged_witness :
    (createTodo sampleDisk "u1" "2024-02-02T00:00:00.000Z"
      { emptyBody with priority := .str "high", status := .str "open" }).1.status = 400
    ∧ (createTodo sampleDisk "u1" "2024-02-02T00:00:00.000Z"
      { emptyBody with priority := .str "high", status := .str "open" }).2 = sampleDisk :=
  ⟨(createTodo_invalid_unchanged sampleDisk "u1" "2024-02-02T00:00:00.000Z"
      { emptyBody with priority := .str "high", status := .str "open" } (Or.inl (by decide))).1,
   (createTodo_invalid_unchanged sampleDisk "u1" "2024-02-02T00:00:00.000Z"
      { emptyBody with priority := .str "high", status := .str "open" } (Or.inl (by decide))).2.2.1⟩

/-! ## updateTodo -/

theorem findIndex_of_mem {α : Type} (p : α → Bool) (l : List α) (h : ∃ a ∈ l, p a = true) :
    ∃ (i : Nat) (a : α), findIndex p l = some i ∧ l.get? i = some a ∧ p a = true := by
  induction l with
  | nil =>
    obtain ⟨a, ha, -⟩ := h
    exact absurd ha (List.not_mem_nil a)
  | cons b l ih =>
    unfold findIndex
    cases hb : p b
    · obtain ⟨a, ha, hpa⟩ := h
      rcases List.mem_cons.mp ha with rfl | ha
      · rw [hb] at hpa
        exact absurd hpa (by decide)
      · obtain ⟨i, c, hi, hc, hpc⟩ := ih ⟨a, ha, hpa⟩
        exact ⟨i + 1, c, by simp [hi], by simpa using hc, hpc⟩
    · exact ⟨0, b, by simp, by simp, hb⟩

/-- The outcome of `updateTodo` on an existing id when validation rejects the body. -/
theorem updateTodo_rejected (d : Disk) (todos : List Todo) (id now : String) (body : Body)
    (i : Nat) (hdoc : d.doc = .tasks todos)
    (hidx : findIndex (fun t => t.id == id) todos = some i)
    (hbad : (body.priority.truthy = true ∧ isPriority body.priority = false)
      ∨ (body.status.truthy = true ∧ isStatus body.status = false)) :
    ∃ msg : String, updateTodo d id now body = (⟨400, .error msg⟩, d) := by
  unfold updateTodo
  simp only [readTodos, hdoc, hidx]
  rw [includes_priority_iff, includes_status_iff]
  by_cases h1 : body.priority.truthy = true ∧ isPriority body.priority = false
  · exact ⟨"Priority must be high, medium, or low", by simp [h1.1, h1.2]⟩
  · have h2 : body.status.truthy = true ∧ isStatus body.status = false := by
      rcases hbad with h | h
      · exact absurd h h1
      · exact h
    have h3 : (body.priority.truthy && !isPriority body.priority) = false := by
      cases ha : body.priority.truthy <;> cases hb : isPriority body.priority <;> simp_all
    exact ⟨"Status must be open or done", by simp [h3, h2.1, h2.2]⟩

/-- The outcome of `updateTodo` on an existing id, a body that passes validation
and a writable document. -/
theorem updateTodo_ok (d : Disk) (todos : List Todo) (id now : String) (body : Body)
    (i : Nat) (old : Todo) (hdoc : d.doc = .tasks todos) (hw : d.writable = true)
    (hidx : findIndex (fun t => t.id == id) todos = some i) (hold : todos.get? i = some old)
    (hp : body.priority.truthy = true → isPriority body.priority = true)
    (hs : body.status.truthy = true → isStatus body.status = true) :
    updateTodo d id now body =
      (⟨200, .item (mergeTodo old now body)⟩,
        { d with doc := .tasks (todos.set i (mergeTodo old now body)) }) := by
  unfold updateTodo
  simp only [readTodos, hdoc, hidx, hold, writeTodos, hw]
  rw [includes_priority_iff, includes_status_iff]
  have h3 : (body.priority.truthy && !isPriority body.priority) = false := by
    cases ha : body.priority.truthy <;> cases hb : isPriority body.priority <;> simp_all
  have h4 : (body.status.truthy && !isStatus body.status) = false := by
    cases ha : body.status.truthy <;> cases hb : isStatus body.status <;> simp_all
  simp [h3, h4]

/-- Under validation the merged `priority || old` is a string, so storing it with
`getString` loses nothing. -/
theorem orElse_priority_str (v : JVal) (old : String)
    (hp : v.truthy = true → isPriority v = true) :
    JVal.str (v.orElse (.str old)).getString = v.orElse (.str old) := by
  unfold JVal.orElse
  cases hv : v.truthy
  · rfl
  · simp only [if_true]
    exact (isPriority_eq_str v (hp hv)).symm

theorem orElse_status_str (v : JVal) (old : String)
    (hs : v.truthy = true → isStatus v = true) :
    JVal.str (v.orElse (.str old)).getString = v.orElse (.str old) := by
  unfold JVal.orElse
  cases hv : v.truthy
  · rfl
  · simp only [if_true]
    exact (isStatus_eq_str v (hs hv)).symm

theorem orElse_of_nonEmptyText (v w : JVal) (h : v.isNonEmptyText = true) : v.orElse w = v := by
  simp [JVal.orElse, truthy_of_isNonEmptyText v h]

theorem orElse_of_absentOrEmpty (v w : JVal) (h : v.isAbsentOrEmpty = true) : v.orElse w = w := by
  simp [JVal.orElse, falsy_of_isAbsentOrEmpty v h]

/-- Counterexample to C8 as stated: on the sample disk, task `a` exists and the
update body carries a priority that is present (the empty string) and outside
high/medium/low, yet updateTodo responds 200, not 400, and rewrites the document. -/
theorem updateTodo_empty_priority_accepted :
    (∃ t ∈ sampleTodos, t.id = "a")
    ∧ ({ emptyBody with priority := .str "" } : Body).priority ≠ .undefined
    ∧ isPriority ({ emptyBody with priority := .str "" } : Body).priority = false
    ∧ (updateTodo sampleDisk "a" "2024-02-02T00:00:00.000Z"
        { emptyBody with priority := .str "" }).1.status = 200
    ∧ (updateTodo sampleDisk "a" "2024-02-02T00:00:00.000Z"
        { emptyBody with priority := .str "" }).2 ≠ sampleDisk := by
  decide

/-- C8 (amended): for every stored collection, every id of an existing task and
every update input in which priority is present with a truthy value (any non-empty
text included) outside high/medium/low, or status is present with a truthy value
outside open/done, updateTodo responds 400 with an error message and the document,
hence the stored task and the whole stored collection, is unchanged. -/
theorem updateTodo_rejects_invalid (d : Disk) (todos : List Todo) (id now : String) (body : Body)
    (hdoc : d.doc = .tasks todos) (hex : ∃ t ∈ todos, t.id = id)
    (hbad : (body.priority.truthy = true ∧ isPriority body.priority = false)
      ∨ (body.status.truthy = true ∧ isStatus body.status = false)) :
    (updateTodo d id now body).1.status = 400
    ∧ (∃ msg : String, (updateTodo d id now body).1.body = .error msg)
    ∧ (updateTodo d id now body).2 = d
    ∧ (updateTodo d id now body).2.doc = .tasks todos := by
  obtain ⟨i, a, hidx, -, -⟩ := findIndex_of_mem (fun t : Todo => t.id == id) todos (by
    obtain ⟨t, ht, hid⟩ := hex
    exact ⟨t, ht, by simp [hid]⟩)
  obtain ⟨msg, hmsg⟩ := updateTodo_rejected d todos id now body i hdoc hidx hbad
  rw [hmsg]
  exact ⟨rfl, ⟨msg, rfl⟩, rfl, hdoc⟩

/-- Witness for C8 (amended): priority "urgent" on the existing sample task `a`. -/
theorem updateTodo_rejects_invalid_witness :
    (updateTodo sampleDisk "a" "2024-02-02T00:00:00.000Z"
      { emptyBody with priority := .str "urgent" }).1.status = 400
    ∧ (updateTodo sampleDisk "a" "2024-02-02T00:00:00.000Z"
      { emptyBody with priority := .str "urgent" }).2 = sampleDisk :=
  ⟨(updateTodo_rejects_invalid sampleDisk sampleTodos "a" "2024-02-02T00:00:00.000Z"
      { emptyBody with priority := .str "urgent" } rfl (by decide) (Or.inl (by decide))).1,
   (updateTodo_rejects_invalid sampleDisk sampleTodos "a" "2024-02-02T00:00:00.000Z"
      { emptyBody with priority := .str "urgent" } rfl (by decide) (Or.inl (by decide))).2.2.1⟩

theorem get?_set_self {α : Type} (l : List α) (i : Nat) (a b : α) (h : l.get? i = some a) :
    (l.set i b).get? i = some b := by
  induction l generalizing i with
  | nil => simp at h
  | cons c l ih =>
    cases i with
    | zero => simp
    | succ i => simpa using ih i (by simpa using h)

/-- C9: for every existing task and every update input that passes validation,
over a writable document, updateTodo responds 200 with the updated task, which is
also what is stored in the task's slot; the updated title, dueDate, priority and
status each equal the input's value when that property is a non-empty text, and
the existing task's prior value when the property is absent or the empty string. -/
theorem updateTodo_merges (d : Disk) (todos : List Todo) (id now : String) (body : Body)
    (hdoc : d.doc = .tasks todos) (hw : d.writable = true) (hex : ∃ t ∈ todos, t.id = id)
    (hp : body.priority.truthy = true → isPriority body.priority = true)
    (hs : body.status.truthy = true → isStatus body.status = true) :
    ∃ (i : Nat) (old updated : Todo),
      findIndex (fun t => t.id == id) todos = some i
      ∧ todos.get? i = some old
      ∧ old.id = id
      ∧ updateTodo d id now body
          = (⟨200, .item updated⟩, { d with doc := .tasks (todos.set i updated) })
      ∧ (todos.set i updated).get? i = some updated
      ∧ (body.title.isNonEmptyText = true → updated.title = body.title)
      ∧ (body.title.isAbsentOrEmpty = true → updated.title = old.title)
      ∧ (body.dueDate.isNonEmptyText = true → updated.dueDate = body.dueDate)
      ∧ (body.dueDate.isAbsentOrEmpty = true → updated.dueDate = old.dueDate)
      ∧ (body.priority.isNonEmptyText = true → JVal.str updated.priority = body.priority)
      ∧ (body.priority.isAbsentOrEmpty = true → updated.priority = old.priority)
      ∧ (body.status.isNonEmptyText = true → JVal.str updated.status = body.status)
      ∧ (body.status.isAbsentOrEmpty = true → updated.status = old.status) := by
  obtain ⟨i, old, hidx, hold, hid⟩ := findIndex_of_mem (fun t : Todo => t.id == id) todos (by
    obtain ⟨t, ht, hid⟩ := hex
    exact ⟨t, ht, by simp [hid]⟩)
  refine ⟨i, old, mergeTodo old now body, hidx, hold, by simpa using hid,
    updateTodo_ok d todos id now body i old hdoc hw hidx hold hp hs,
    get?_set_self todos i old _ hold, ?_, ?_, ?_, ?_, ?_, ?_, ?_, ?_⟩
  · intro h
    exact orElse_of_nonEmptyText _ _ h
  · intro h
    exact orElse_of_absentOrEmpty _ _ h
  · intro h
    exact orElse_of_nonEmptyText _ _ h
  · intro h
    exact orElse_of_absentOrEmpty _ _ h
  · intro h
    show JVal.str (body.priority.orElse (.str old.priority)).getString = body.priority
    rw [orElse_priority_str _ _ hp, orElse_of_nonEmptyText _ _ h]
  · intro h
    show (body.priority.orElse (.str old.priority)).getString = old.priority
    rw [orElse_of_absentOrEmpty _ _ h]
    rfl
  · intro h
    show JVal.str (body.status.orElse (.str old.status)).getString = body.status
    rw [orElse_status_str _ _ hs, orElse_of_nonEmptyText _ _ h]
  · intro h
    show (body.status.orElse (.str old.status)).getString = old.status
    rw [orElse_of_absentOrEmpty _ _ h]
    rfl

/-- Witness for C9: marking the sample task `c` done keeps its title, due date and
priority and stores the updated task in slot 2. -/
theorem updateTodo_merges_witness :
    updateTodo sampleDisk "c" "2024-02-02T00:00:00.000Z" { emptyBody with status := .str "done" }
      = (⟨200, .item { sampleTodo "c" "medium" "done" (.num 200) with
            updatedAt := some "2024-02-02T00:00:00.000Z" }⟩,
         { sampleDisk with doc := .tasks (sampleTodos.set 2
            { sampleTodo "c" "medium" "done" (.num 200) with
              updatedAt := some "2024-02-02T00:00:00.000Z" }) }) := by
  obtain ⟨i, old, updated, -, -, -, h, -⟩ := updateTodo_merges sampleDisk sampleTodos "c"
    "2024-02-02T00:00:00.000Z" { emptyBody with status := .str "done" } rfl rfl (by decide)
    (by decide) (by decide)
  rw [h]
  exact h.symm.trans (by decide)

/-- C10: for every existing task and every update input that passes validation,
over a writable document, the updated description is the input's description
whenever the input provides one, the explicit empty string included (which clears
the description), and is the prior description when the input's description is
absent; whereas for title, dueDate, priority and status an empty-string input keeps
the prior value, and the whole outcome of the request (response and document) is
the same as with that property absent. -/
theorem updateTodo_description_rule (d : Disk) (todos : List Todo) (id now : String)
    (body : Body) (hdoc : d.doc = .tasks todos) (hw : d.writable = true)
    (hex : ∃ t ∈ todos, t.id = id)
    (hp : body.priority.truthy = true → isPriority body.priority = true)
    (hs : body.status.truthy = true → isStatus body.status = true) :
    (∃ (i : Nat) (old updated : Todo),
      findIndex (fun t => t.id == id) todos = some i
      ∧ todos.get? i = some old
      ∧ updateTodo d id now body
          = (⟨200, .item updated⟩, { d with doc := .tasks (todos.set i updated) })
      ∧ (body.description ≠ .undefined → updated.description = body.description)
      ∧ (body.description = .str "" → updated.description = .str "")
      ∧ (body.description = .undefined → updated.description = old.description)
      ∧ (body.title = .str "" → updated.title = old.title)
      ∧ (body.dueDate = .str "" → updated.dueDate = old.dueDate)
      ∧ (body.priority = .str "" → updated.priority = old.priority)
      ∧ (body.status = .str "" → updated.status = old.status))
    ∧ updateTodo d id now { body with title := .str "" }
        = updateTodo d id now { body with title := .undefined }
    ∧ updateTodo d id now { body with dueDate := .str "" }
        = updateTodo d id now { body with dueDate := .undefined }
    ∧ updateTodo d id now { body with priority := .str "" }
        = updateTodo d id now { body with priority := .undefined }
    ∧ updateTodo d id now { body with status := .str "" }
        = updateTodo d id now { body with status := .undefined } := by
  obtain ⟨i, old, hidx, hold, -⟩ := findIndex_of_mem (fun t : Todo => t.id == id) todos (by
    obtain ⟨t, ht, hid⟩ := hex
    exact ⟨t, ht, by simp [hid]⟩)
  refine ⟨⟨i, old, mergeTodo old now body, hidx, hold,
    updateTodo_ok d todos id now body i old hdoc hw hidx hold hp hs, ?_, ?_, ?_, ?_, ?_, ?_, ?_⟩,
    rfl, rfl, rfl, rfl⟩
  · intro h
    simp [mergeTodo, h]
  · intro h
    simp [mergeTodo, h]
  · intro h
    simp [mergeTodo, h]
  · intro h
    simp [mergeTodo, h, JVal.orElse, JVal.truthy]
  · intro h
    simp [mergeTodo, h, JVal.orElse, JVal.truthy]
  · intro h
    simp [mergeTodo, h, JVal.orElse, JVal.truthy, JVal.getString]
  · intro h
    simp [mergeTodo, h, JVal.orElse, JVal.truthy, JVal.getString]

/-- Witness for C10: an empty-string description clears the description of the
sample task `a`, while its empty-string title leaves the title as it was. -/
theorem updateTodo_description_rule_witness :
    ∃ (i : Nat) (old updated : Todo),
      findIndex (fun t => t.id == "a") sampleTodos = some i
      ∧ sampleTodos.get? i = some old
      ∧ updateTodo sampleDisk "a" "2024-02-02T00:00:00.000Z"
          { emptyBody with title := .str "", description := .str "" }
          = (⟨200, .item updated⟩, { sampleDisk with doc := .tasks (sampleTodos.set i updated) })
      ∧ updated.description = .str ""
      ∧ updated.title = old.title := by
  obtain ⟨⟨i, old, updated, h1, h2, h3, -, h5, -, h7, -⟩, -⟩ :=
    updateTodo_description_rule sampleDisk sampleTodos "a" "2024-02-02T00:00:00.000Z"
      { emptyBody with title := .str "", description := .str "" } rfl rfl (by decide)
      (by decide) (by decide)
  exact ⟨i, old, updated, h1, h2, h3, h5 rfl, h7 rfl⟩

/-! ## Outcomes of the mutating handlers -/

theorem findIndex_some {α : Type} (p : α → Bool) (l : List α) (i : Nat)
    (h : findIndex p l = some i) : ∃ a : α, l.get? i = some a ∧ p a = true := by
  induction l generalizing i with
  | nil => simp [findIndex] at h
  | cons b l ih =>
    unfold findIndex at h
    cases hb : p b
    · rw [hb] at h
      simp only [Bool.false_eq_true, if_false, Option.map_eq_some'] at h
      obtain ⟨j, hj, rfl⟩ := h
      obtain ⟨a, ha, hpa⟩ := ih j hj
      exact ⟨a, by simpa using ha, hpa⟩
    · rw [hb] at h
      simp only [if_true, Option.some.injEq] at h
      subst h
      exact ⟨b, by simp, hb⟩

theorem findIndex_none_iff {α : Type} (p : α → Bool) (l : List α) :
    findIndex p l = none ↔ ∀ a ∈ l, p a = false := by
  induction l with
  | nil => simp [findIndex]
  | cons b l ih =>
    unfold findIndex
    cases hb : p b
    · simp [ih, hb]
    · simp [hb]

/-- Every outcome of `updateTodo`: an error response that leaves the disk as it
was, or the merged task written into the slot of the first task with the id. -/
theorem updateTodo_cases (d : Disk) (id now : String) (body : Body) :
    (∃ (code : Nat) (msg : String), (code = 500 ∨ code = 404 ∨ code = 400)
      ∧ updateTodo d id now body = (⟨code, .error msg⟩, d))
    ∨ (∃ (todos : List Todo) (i : Nat) (old : Todo),
        d.doc = .tasks todos ∧ d.writable = true
        ∧ findIndex (fun t => t.id == id) todos = some i ∧ todos.get? i = some old
        ∧ old.id = id
        ∧ (body.priority.truthy = true → isPriority body.priority = true)
        ∧ (body.status.truthy = true → isStatus body.status = true)
        ∧ updateTodo d id now body =
            (⟨200, .item (mergeTodo old now body)⟩,
              { d with doc := .tasks (todos.set i (mergeTodo old now body)) })) := by
  cases hdoc : d.doc with
  | missing =>
    exact Or.inl ⟨500, "Failed to update todo", Or.inl rfl, by simp [updateTodo, readTodos, hdoc]⟩
  | garbage raw =>
    exact Or.inl ⟨500, "Failed to update todo", Or.inl rfl, by simp [updateTodo, readTodos, hdoc]⟩
  | tasks todos =>
    cases hidx : findIndex (fun t : Todo => t.id == id) todos with
    | none =>
      exact Or.inl ⟨404, "Todo not found", Or.inr (Or.inl rfl),
        by simp [updateTodo, readTodos, hdoc, hidx]⟩
    | some i =>
      obtain ⟨old, hold, hid⟩ := findIndex_some _ todos i hidx
      by_cases hbad : (body.priority.truthy = true ∧ isPriority body.priority = false)
          ∨ (body.status.truthy = true ∧ isStatus body.status = false)
      · obtain ⟨msg, hmsg⟩ := updateTodo_rejected d todos id now body i hdoc hidx hbad
        exact Or.inl ⟨400, msg, Or.inr (Or.inr rfl), hmsg⟩
      · have hp : body.priority.truthy = true → isPriority body.priority = true := by
          intro h
          by_contra hc
          exact hbad (Or.inl ⟨h, by simpa using hc⟩)
        have hs : body.status.truthy = true → isStatus body.status = true := by
          intro h
          by_contra hc
          exact hbad (Or.inr ⟨h, by simpa using hc⟩)
        by_cases hw : d.writable = true
        swap
        · refine Or.inl ⟨500, "Failed to update todo", Or.inl rfl, ?_⟩
          unfold updateTodo
          simp only [readTodos, hdoc, hidx, hold, writeTodos, hw]
          rw [includes_priority_iff, includes_status_iff]
          have h3 : (body.priority.truthy && !isPriority body.priority) = false := by
            cases ha : body.priority.truthy <;> cases hb : isPriority body.priority <;> simp_all
          have h4 : (body.status.truthy && !isStatus body.status) = false := by
            cases ha : body.status.truthy <;> cases hb : isStatus body.status <;> simp_all
          simp [h3, h4]
        · exact Or.inr ⟨todos, i, old, rfl, hw, hidx, hold, by simpa using hid, hp, hs,
            updateTodo_ok d todos id now body i old hdoc hw hidx hold hp hs⟩

/-- A 200 response of `updateTodo` is the successful outcome. -/
theorem updateTodo_200 (d : Disk) (id now : String) (body : Body)
    (h : (updateTodo d id now body).1.status = 200) :
    ∃ (todos : List Todo) (i : Nat) (old : Todo),
      d.doc = .tasks todos ∧ d.writable = true
      ∧ findIndex (fun t => t.id == id) todos = some i ∧ todos.get? i = some old
      ∧ old.id = id
      ∧ updateTodo d id now body =
          (⟨200, .item (mergeTodo old now body)⟩,
            { d with doc := .tasks (todos.set i (mergeTodo old now body)) }) := by
  rcases updateTodo_cases d id now body with ⟨code, msg, hcode, heq⟩ | ⟨todos, i, old, h1, h2, h3, h4, h5, -, -, h8⟩
  · rw [heq] at h
    simp only at h
    rcases hcode with rfl | rfl | rfl <;> exact absurd h (by decide)
  · exact ⟨todos, i, old, h1, h2, h3, h4, h5, h8⟩

/-- C11: for every document, id and update body, whenever updateTodo succeeds
(responds 200) the response carries the updated task, stored in the slot of the
existing task, and its id and createdAt are exactly those of the existing task;
the properties of the body that the handler does not read, such as an id or a
createdAt, have no effect on the outcome at all. -/
theorem updateTodo_preserves_id_createdAt (d : Disk) (id now : String) (body : Body)
    (h : (updateTodo d id now body).1.status = 200) :
    (∃ (todos : List Todo) (i : Nat) (old updated : Todo),
      d.doc = .tasks todos
      ∧ todos.get? i = some old
      ∧ old.id = id
      ∧ updateTodo d id now body
          = (⟨200, .item updated⟩, { d with doc := .tasks (todos.set i updated) })
      ∧ updated.id = old.id
      ∧ updated.createdAt = old.createdAt)
    ∧ (∀ others : List (String × JVal),
        updateTodo d id now { body with others := others } = updateTodo d id now body) := by
  obtain ⟨todos, i, old, h1, -, -, h4, h5, h6⟩ := updateTodo_200 d id now body h
  exact ⟨⟨todos, i, old, mergeTodo old now body, h1, h4, h5, h6, rfl, rfl⟩, fun _ => rfl⟩

/-- Witness for C11: an update of the sample task `a` whose body also carries an
id and a createdAt keeps the stored id and createdAt. -/
theorem updateTodo_preserves_id_createdAt_witness :
    ∃ (todos : List Todo) (i : Nat) (old updated : Todo),
      sampleDisk.doc = .tasks todos
      ∧ todos.get? i = some old
      ∧ old.id = "a"
      ∧ updateTodo sampleDisk "a" "2024-02-02T00:00:00.000Z"
          { emptyBody with title := .str "Buy bread",
                           others := [("id", .str "zzz"), ("createdAt", .str "1999")] }
          = (⟨200, .item updated⟩, { sampleDisk with doc := .tasks (todos.set i updated) })
      ∧ updated.id = old.id
      ∧ updated.createdAt = old.createdAt :=
  (updateTodo_preserves_id_createdAt sampleDisk "a" "2024-02-02T00:00:00.000Z"
    { emptyBody with title := .str "Buy bread",
                     others := [("id", .str "zzz"), ("createdAt", .str "1999")] } (by decide)).1

/-- C12: for every document, id and update body, whenever updateTodo succeeds
(responds 200), an empty body included, the returned task, which is the task stored
in the slot of the existing one, has updatedAt equal to the current time of the
request, whatever updatedAt the existing task had. -/
theorem updateTodo_refreshes_updatedAt (d : Disk) (id now : String) (body : Body)
    (h : (updateTodo d id now body).1.status = 200) :
    ∃ (todos : List Todo) (i : Nat) (old updated : Todo),
      d.doc = .tasks todos
      ∧ todos.get? i = some old
      ∧ updateTodo d id now body
          = (⟨200, .item updated⟩, { d with doc := .tasks (todos.set i updated) })
      ∧ (todos.set i updated).get? i = some updated
      ∧ updated.updatedAt = some now := by
  obtain ⟨todos, i, old, h1, -, -, h4, -, h6⟩ := updateTodo_200 d id now body h
  exact ⟨todos, i, old, mergeTodo old now body, h1, h4, h6, get?_set_self todos i old _ h4, rfl⟩

/-- Witness for C12: an empty update body on the sample task `b`. -/
theorem updateTodo_refreshes_updatedAt_witness :
    ∃ (todos : List Todo) (i : Nat) (old updated : Todo),
      sampleDisk.doc = .tasks todos
      ∧ todos.get? i = some old
      ∧ updateTodo sampleDisk "b" "2024-02-02T00:00:00.000Z" emptyBody
          = (⟨200, .item updated⟩, { sampleDisk with doc := .tasks (todos.set i updated) })
      ∧ (todos.set i updated).get? i = some updated
      ∧ updated.updatedAt = some "2024-02-02T00:00:00.000Z" :=
  updateTodo_refreshes_updatedAt sampleDisk "b" "2024-02-02T00:00:00.000Z" emptyBody (by decide)

/-! ## deleteTodo and getTodoById -/

theorem filter_ne_length_iff (todos : List Todo) (id : String) :
    (todos.filter (fun t => t.id != id)).length = todos.length ↔ ¬ ∃ t ∈ todos, t.id = id := by
  rw [List.filter_length_eq_length]
  constructor
  · rintro h ⟨t, ht, hid⟩
    have := h t ht
    simp [hid] at this
  · intro h t ht
    simp only [bne_iff_ne, ne_eq]
    exact fun hid => h ⟨t, ht, hid⟩

theorem find?_id_none_iff (todos : List Todo) (id : String) :
    todos.find? (fun t => t.id == id) = none ↔ ¬ ∃ t ∈ todos, t.id = id := by
  rw [List.find?_eq_none]
  constructor
  · rintro h ⟨t, ht, hid⟩
    exact h t ht (by simp [hid])
  · intro h t ht hp
    exact h ⟨t, ht, by simpa using hp⟩

/-- C13: for every stored collection and id, if no stored task has the id then
deleteTodo responds 404 and leaves the document unchanged; otherwise, the document
being writable, it responds 200 and the new stored collection is the previous one
with every task of that id removed and all other tasks retained in their original
order, so that a subsequent getTodoById for the id responds 404. -/
theorem deleteTodo_spec (d : Disk) (todos : List Todo) (id : String)
    (hdoc : d.doc = .tasks todos) :
    ((¬ ∃ t ∈ todos, t.id = id) → deleteTodo d id = (⟨404, .error "Todo not found"⟩, d))
    ∧ ((∃ t ∈ todos, t.id = id) → d.writable = true →
        deleteTodo d id = (⟨200, .message "Todo deleted successfully"⟩,
          { d with doc := .tasks (todos.filter (fun t => t.id != id)) })
        ∧ (todos.filter (fun t => t.id != id)).Sublist todos
        ∧ (∀ t, t ∈ todos.filter (fun t => t.id != id) ↔ t ∈ todos ∧ t.id ≠ id)
        ∧ (todos.filter (fun t => t.id != id)).length < todos.length
        ∧ (getTodoById (deleteTodo d id).2 id).1.status = 404) := by
  constructor
  · intro hno
    unfold deleteTodo
    simp only [readTodos, hdoc]
    rw [if_pos ((filter_ne_length_iff todos id).mpr hno)]
  · intro hex hw
    have hlen : ¬ (todos.filter (fun t => t.id != id)).length = todos.length :=
      fun h => (filter_ne_length_iff todos id).mp h hex
    have hdel : deleteTodo d id = (⟨200, .message "Todo deleted successfully"⟩,
        { d with doc := .tasks (todos.filter (fun t => t.id != id)) }) := by
      unfold deleteTodo
      simp only [readTodos, hdoc]
      rw [if_neg hlen]
      simp [writeTodos, hw]
    refine ⟨hdel, List.filter_sublist _, ?_, ?_, ?_⟩
    · intro t
      simp
    · exact lt_of_le_of_ne (List.length_filter_le _ _) hlen
    · rw [hdel]
      have hnone : (todos.filter (fun t => t.id != id)).find? (fun t => t.id == id) = none := by
        rw [find?_id_none_iff]
        rintro ⟨t, ht, hid⟩
        simp [hid] at ht
      simp [getTodoById, readTodos, hnone]

/-- Witness for C13: deleting the sample task `b` leaves `a`, `c`, `d` in order. -/
theorem deleteTodo_spec_witness :
    deleteTodo sampleDisk "b" = (⟨200, .message "Todo deleted successfully"⟩,
      { sampleDisk with doc := .tasks [sampleTodo "a" "low" "open" (.num 400),
          sampleTodo "c" "medium" "open" (.num 200), sampleTodo "d" "high" "open" (.num 100)] }) :=
  ((deleteTodo_spec sampleDisk sampleTodos "b" rfl).2 (by decide) rfl).1.trans (by decide)

/-- C14: for every stored collection and id, when a stored task has the id
getTodoById responds 200 with the first stored task of that id (every task stored
before it has another id), and it responds 404 if and only if no stored task has
the id; the document is not touched. -/
theorem getTodoById_spec (d : Disk) (todos : List Todo) (id : String)
    (hdoc : d.doc = .tasks todos) :
    ((∃ t ∈ todos, t.id = id) →
      ∃ (t : Todo) (before after : List Todo),
        todos = before ++ t :: after ∧ t.id = id ∧ (∀ a ∈ before, a.id ≠ id)
        ∧ getTodoById d id = (⟨200, .item t⟩, d))
    ∧ ((getTodoById d id).1.status = 404 ↔ ¬ ∃ t ∈ todos, t.id = id)
    ∧ (getTodoById d id).2 = d := by
  refine ⟨?_, ?_, ?_⟩
  · intro hex
    cases hf : todos.find? (fun t => t.id == id) with
    | none => exact absurd hex ((find?_id_none_iff todos id).mp hf)
    | some t =>
      obtain ⟨hp, before, after, hsplit, hbefore⟩ := List.find?_eq_some.mp hf
      refine ⟨t, before, after, hsplit, by simpa using hp, ?_, ?_⟩
      · intro a ha
        simpa using hbefore a ha
      · simp [getTodoById, readTodos, hdoc, hf]
  · cases hf : todos.find? (fun t => t.id == id) with
    | none =>
      have hno := (find?_id_none_iff todos id).mp hf
      simp [getTodoById, readTodos, hdoc, hf, hno]
    | some t =>
      have hex : ∃ t ∈ todos, t.id = id :=
        ⟨t, List.mem_of_find?_eq_some hf, by simpa using List.find?_some hf⟩
      simp [getTodoById, readTodos, hdoc, hf, hex]
  · cases hf : todos.find? (fun t => t.id == id) <;> simp [getTodoById, readTodos, hdoc, hf]

/-- Witness for C14: fetching the sample task `c`. -/
theorem getTodoById_spec_witness :
    ∃ (t : Todo) (before after : List Todo),
      sampleTodos = before ++ t :: after ∧ t.id = "c" ∧ (∀ a ∈ before, a.id ≠ "c")
      ∧ getTodoById sampleDisk "c" = (⟨200, .item t⟩, sampleDisk) :=
  (getTodoById_spec sampleDisk sampleTodos "c" rfl).1 (by decide)

/-- C15: for every stored collection, every id that no stored task has and every
update body, valid or not, updateTodo responds 404 and leaves the document
unchanged: the existence check precedes validation. -/
theorem updateTodo_missing_id (d : Disk) (todos : List Todo) (id now : String) (body : Body)
    (hdoc : d.doc = .tasks todos) (hno : ¬ ∃ t ∈ todos, t.id = id) :
    updateTodo d id now body = (⟨404, .error "Todo not found"⟩, d) := by
  have hidx : findIndex (fun t : Todo => t.id == id) todos = none := by
    rw [findIndex_none_iff]
    intro t ht
    simp only [beq_eq_false_iff_ne, ne_eq]
    exact fun hid => hno ⟨t, ht, hid⟩
  simp [updateTodo, readTodos, hdoc, hidx]

/-- Witness for C15: an update with the out-of-set priority "urgent" and status
"later" addressed to an id that the sample collection lacks answers 404, not 400. -/
theorem updateTodo_missing_id_witness :
    updateTodo sampleDisk "zzz" "2024-02-02T00:00:00.000Z"
      { emptyBody with priority := .str "urgent", status := .str "later" }
      = (⟨404, .error "Todo not found"⟩, sampleDisk) :=
  updateTodo_missing_id sampleDisk sampleTodos "zzz" "2024-02-02T00:00:00.000Z"
    { emptyBody with priority := .str "urgent", status := .str "later" } rfl (by decide)

/-! ## Invariants of the stored collection -/

/-- Every outcome of `createTodo`: an error response that leaves the disk as it
was, or the new task appended to the stored collection. -/
theorem createTodo_cases (d : Disk) (uuid now : String) (body : Body) :
    (∃ (code : Nat) (msg : String), (code = 400 ∨ code = 500)
      ∧ createTodo d uuid now body = (⟨code, .error msg⟩, d))
    ∨ (∃ todos : List Todo,
        d.doc = .tasks todos ∧ d.writable = true
        ∧ body.title.truthy = true ∧ isPriority body.priority = true
        ∧ isStatus body.status = true
        ∧ createTodo d uuid now body =
          (⟨201, .item ⟨uuid, body.title, body.description.orElse (.str ""), body.dueDate,
              body.priority.getString, body.status.getString, now, none, []⟩⟩,
            { d with doc := .tasks (todos ++ [⟨uuid, body.title,
              body.description.orElse (.str ""), body.dueDate, body.priority.getString,
              body.status.getString, now, none, []⟩]) })) := by
  by_cases hbad : body.title.truthy = false ∨ isPriority body.priority = false
      ∨ isStatus body.status = false
  · obtain ⟨msg, hmsg⟩ := createTodo_invalid d uuid now body hbad
    exact Or.inl ⟨400, msg, Or.inl rfl, hmsg⟩
  · simp only [not_or, Bool.not_eq_false] at hbad
    obtain ⟨ht, hp, hs⟩ := hbad
    cases hdoc : d.doc with
    | missing =>
      refine Or.inl ⟨500, "Failed to create todo", Or.inr rfl, ?_⟩
      rw [createTodo_valid d uuid now body ht hp hs]
      simp [readTodos, hdoc]
    | garbage raw =>
      refine Or.inl ⟨500, "Failed to create todo", Or.inr rfl, ?_⟩
      rw [createTodo_valid d uuid now body ht hp hs]
      simp [readTodos, hdoc]
    | tasks todos =>
      by_cases hw : d.writable = true
      · exact Or.inr ⟨todos, rfl, hw, ht, hp, hs, createTodo_ok d todos uuid now body hdoc hw ht hp hs⟩
      · refine Or.inl ⟨500, "Failed to create todo", Or.inr rfl, ?_⟩
        rw [createTodo_valid d uuid now body ht hp hs]
        simp [readTodos, writeTodos, hdoc, hw]

/-- Every outcome of `deleteTodo`: an error response that leaves the disk as it
was, or the stored collection without the tasks of the id. -/
theorem deleteTodo_cases (d : Disk) (id : String) :
    (∃ (code : Nat) (msg : String), (code = 404 ∨ code = 500)
      ∧ deleteTodo d id = (⟨code, .error msg⟩, d))
    ∨ (∃ todos : List Todo,
        d.doc = .tasks todos ∧ d.writable = true
        ∧ deleteTodo d id = (⟨200, .message "Todo deleted successfully"⟩,
            { d with doc := .tasks (todos.filter (fun t => t.id != id)) })) := by
  cases hdoc : d.doc with
  | missing =>
    exact Or.inl ⟨500, "Failed to delete todo", Or.inr rfl, by simp [deleteTodo, readTodos, hdoc]⟩
  | garbage raw =>
    exact Or.inl ⟨500, "Failed to delete todo", Or.inr rfl, by simp [deleteTodo, readTodos, hdoc]⟩
  | tasks todos =>
    by_cases hlen : (todos.filter (fun t => t.id != id)).length = todos.length
    · refine Or.inl ⟨404, "Todo not found", Or.inl rfl, ?_⟩
      unfold deleteTodo
      simp only [readTodos, hdoc]
      rw [if_pos hlen]
    · by_cases hw : d.writable = true
      · refine Or.inr ⟨todos, rfl, hw, ?_⟩
        unfold deleteTodo
        simp only [readTodos, hdoc]
        rw [if_neg hlen]
        simp [writeTodos, hw]
      · refine Or.inl ⟨500, "Failed to delete todo", Or.inr rfl, ?_⟩
        unfold deleteTodo
        simp only [readTodos, hdoc]
        rw [if_neg hlen]
        simp [writeTodos, hw]

theorem map_id_set (todos : List Todo) (i : Nat) (old new : Todo)
    (hold : todos.get? i = some old) (hid : new.id = old.id) :
    (todos.set i new).map (fun t => t.id) = todos.map (fun t => t.id) := by
  induction todos generalizing i with
  | nil => simp at hold
  | cons a l ih =>
    cases i with
    | zero =>
      simp only [List.get?_cons_zero, Option.some.injEq] at hold
      subst hold
      simp [hid]
    | succ i =>
      simp only [List.set_cons_succ, List.map_cons, List.cons.injEq, true_and]
      exact ih i (by simpa using hold)

/-- C16: id uniqueness is an invariant of the stored collection: if no two stored
tasks share an id then, whatever the request and whether it succeeds or fails, the
document after createTodo (the generated id differing from every stored id), after
updateTodo and after deleteTodo still holds a collection in which no two tasks
share an id. -/
theorem uniqueIds_preserved (d : Disk) (todos : List Todo) (hdoc : d.doc = .tasks todos)
    (huniq : uniqueIds todos) :
    (∀ (uuid now : String) (body : Body), (∀ t ∈ todos, t.id ≠ uuid) →
      ∃ after : List Todo, (createTodo d uuid now body).2.doc = .tasks after ∧ uniqueIds after)
    ∧ (∀ (id now : String) (body : Body),
      ∃ after : List Todo, (updateTodo d id now body).2.doc = .tasks after ∧ uniqueIds after)
    ∧ (∀ id : String,
      ∃ after : List Todo, (deleteTodo d id).2.doc = .tasks after ∧ uniqueIds after) := by
  refine ⟨?_, ?_, ?_⟩
  · intro uuid now body hfresh
    rcases createTodo_cases d uuid now body with ⟨code, msg, -, heq⟩ | ⟨todos2, hdoc2, -, -, -, -, heq⟩
    · exact ⟨todos, by rw [heq]; exact hdoc, huniq⟩
    · rw [hdoc] at hdoc2
      injection hdoc2 with hdoc2
      subst hdoc2
      refine ⟨_, by rw [heq], ?_⟩
      unfold uniqueIds at huniq ⊢
      simp only [List.map_append, List.map_cons, List.map_nil]
      rw [List.nodup_append]
      refine ⟨huniq, List.nodup_singleton _, ?_⟩
      intro x hx hx2
      simp only [List.mem_singleton] at hx2
      subst hx2
      obtain ⟨t, ht, hid⟩ := List.mem_map.mp hx
      exact hfresh t ht hid
  · intro id now body
    rcases updateTodo_cases d id now body with ⟨code, msg, -, heq⟩ | ⟨todos2, i, old, hdoc2, -, -, hold, -, -, -, heq⟩
    · exact ⟨todos, by rw [heq]; exact hdoc, huniq⟩
    · rw [hdoc] at hdoc2
      injection hdoc2 with hdoc2
      subst hdoc2
      refine ⟨_, by rw [heq], ?_⟩
      unfold uniqueIds at huniq ⊢
      rw [map_id_set todos i old (mergeTodo old now body) hold rfl]
      exact huniq
  · intro id
    rcases deleteTodo_cases d id with ⟨code, msg, -, heq⟩ | ⟨todos2, hdoc2, -, heq⟩
    · exact ⟨todos, by rw [heq]; exact hdoc, huniq⟩
    · rw [hdoc] at hdoc2
      injection hdoc2 with hdoc2
      subst hdoc2
      refine ⟨_, by rw [heq], ?_⟩
      unfold uniqueIds at huniq ⊢
      exact huniq.sublist ((List.filter_sublist _).map _)

/-- Witness for C16: the sample collection has pairwise distinct ids, and so has
the document after an update of the sample task `a`. -/
theorem uniqueIds_preserved_witness :
    ∃ after : List Todo,
      (updateTodo sampleDisk "a" "2024-02-02T00:00:00.000Z"
        { emptyBody with status := .str "done" }).2.doc = .tasks after
      ∧ uniqueIds after :=
  (uniqueIds_preserved sampleDisk sampleTodos rfl (by decide)).2.1 "a"
    "2024-02-02T00:00:00.000Z" { emptyBody with status := .str "done" }

theorem not_absentOrEmpty_of_truthy (v : JVal) (h : v.truthy = true) :
    v.isAbsentOrEmpty = false := by
  cases hv : v.isAbsentOrEmpty
  · rfl
  · rw [falsy_of_isAbsentOrEmpty v hv] at h
    exact absurd h (by decide)

theorem validTodo_iff (t : Todo) :
    validTodo t = true ↔
      t.title.isAbsentOrEmpty = false ∧ isPriority (.str t.priority) = true
        ∧ isStatus (.str t.status) = true := by
  simp [validTodo, and_assoc]

/-- The object that a validated update writes satisfies the field invariant when
the object it replaces does. -/
theorem validTodo_mergeTodo (old : Todo) (now : String) (body : Body)
    (hold : validTodo old = true)
    (hp : body.priority.truthy = true → isPriority body.priority = true)
    (hs : body.status.truthy = true → isStatus body.status = true) :
    validTodo (mergeTodo old now body) = true := by
  rw [validTodo_iff] at hold ⊢
  obtain ⟨h1, h2, h3⟩ := hold
  refine ⟨?_, ?_, ?_⟩
  · show (body.title.orElse old.title).isAbsentOrEmpty = false
    unfold JVal.orElse
    cases ht : body.title.truthy
    · simpa using h1
    · simpa using not_absentOrEmpty_of_truthy _ ht
  · show isPriority (.str (body.priority.orElse (.str old.priority)).getString) = true
    rw [orElse_priority_str _ _ hp]
    unfold JVal.orElse
    cases ht : body.priority.truthy
    · simpa using h2
    · simpa using hp ht
  · show isStatus (.str (body.status.orElse (.str old.status)).getString) = true
    rw [orElse_status_str _ _ hs]
    unfold JVal.orElse
    cases ht : body.status.truthy
    · simpa using h3
    · simpa using hs ht

/-- C17: field validity is an invariant of the stored collection: if every stored
task has a title that is neither absent nor empty, a priority among
high/medium/low and a status among open/done, then the same holds of the document
after any createTodo, updateTodo or deleteTodo, whatever the request body and
whether the request succeeds or fails. -/
theorem validTodo_preserved (d : Disk) (todos : List Todo) (hdoc : d.doc = .tasks todos)
    (hvalid : ∀ t ∈ todos, validTodo t = true) :
    (∀ (uuid now : String) (body : Body),
      ∃ after : List Todo, (createTodo d uuid now body).2.doc = .tasks after
        ∧ ∀ t ∈ after, validTodo t = true)
    ∧ (∀ (id now : String) (body : Body),
      ∃ after : List Todo, (updateTodo d id now body).2.doc = .tasks after
        ∧ ∀ t ∈ after, validTodo t = true)
    ∧ (∀ id : String,
      ∃ after : List Todo, (deleteTodo d id).2.doc = .tasks after
        ∧ ∀ t ∈ after, validTodo t = true) := by
  refine ⟨?_, ?_, ?_⟩
  · intro uuid now body
    rcases createTodo_cases d uuid now body with ⟨code, msg, -, heq⟩ | ⟨todos2, hdoc2, -, ht, hp, hs, heq⟩
    · exact ⟨todos, by rw [heq]; exact hdoc, hvalid⟩
    · rw [hdoc] at hdoc2
      injection hdoc2 with hdoc2
      subst hdoc2
      refine ⟨_, by rw [heq], ?_⟩
      intro t hmem
      rcases List.mem_append.mp hmem with hmem | hmem
      · exact hvalid t hmem
      · rw [List.mem_singleton] at hmem
        subst hmem
        rw [validTodo_iff]
        refine ⟨not_absentOrEmpty_of_truthy _ ht, ?_, ?_⟩
        · show isPriority (.str body.priority.getString) = true
          rw [← isPriority_eq_str _ hp]
          exact hp
        · show isStatus (.str body.status.getString) = true
          rw [← isStatus_eq_str _ hs]
          exact hs
  · intro id now body
    rcases updateTodo_cases d id now body with ⟨code, msg, -, heq⟩ | ⟨todos2, i, old, hdoc2, -, -, hold, -, hp, hs, heq⟩
    · exact ⟨todos, by rw [heq]; exact hdoc, hvalid⟩
    · rw [hdoc] at hdoc2
      injection hdoc2 with hdoc2
      subst hdoc2
      refine ⟨_, by rw [heq], ?_⟩
      intro t hmem
      rcases List.mem_or_eq_of_mem_set hmem with hmem | rfl
      · exact hvalid t hmem
      · exact validTodo_mergeTodo old now body (hvalid old (List.get?_mem hold)) hp hs
  · intro id
    rcases deleteTodo_cases d id with ⟨code, msg, -, heq⟩ | ⟨todos2, hdoc2, -, heq⟩
    · exact ⟨todos, by rw [heq]; exact hdoc, hvalid⟩
    · rw [hdoc] at hdoc2
      injection hdoc2 with hdoc2
      subst hdoc2
      refine ⟨_, by rw [heq], ?_⟩
      intro t hmem
      exact hvalid t (List.mem_filter.mp hmem).1

/-- Witness for C17: an update of the sample task `a` with an empty title, an
empty priority and an empty status leaves every stored task valid. -/
theorem validTodo_preserved_witness :
    ∃ after : List Todo,
      (updateTodo sampleDisk "a" "2024-02-02T00:00:00.000Z"
        { emptyBody with title := .str "", priority := .str "", status := .str "" }).2.doc
        = .tasks after
      ∧ ∀ t ∈ after, validTodo t = true :=
  (validTodo_preserved sampleDisk sampleTodos rfl (by decide)).2.1 "a"
    "2024-02-02T00:00:00.000Z"
    { emptyBody with title := .str "", priority := .str "", status := .str "" }

/-! ## JSON text: reading back what was written -/

theorem skipWs_of_not_ws (c : Char) (l : List Char) (h : isWs c = false) :
    skipWs (c :: l) = c :: l := by
  simp [skipWs, h]

theorem skipWs_indentOf (n : Nat) (l : List Char) : skipWs (indentOf n ++ l) = skipWs l := by
  induction n with
  | zero => rfl
  | succ n ih =>
    have h : indentOf (n + 1) ++ l = Char.ofNat 32 :: (indentOf n ++ l) := by
      simp [indentOf, List.replicate_succ]
    rw [h]
    have hws : isWs (Char.ofNat 32) = true := by decide
    simp only [skipWs, hws, if_true]
    exact ih

theorem skipWs_newline_indentOf (n : Nat) (l : List Char) :
    skipWs (Char.ofNat 10 :: (indentOf n ++ l)) = skipWs l := by
  have hws : isWs (Char.ofNat 10) = true := by decide
  simp only [skipWs, hws, if_true]
  exact skipWs_indentOf n l

/-- Reading the escape of a code point gives back the code point. -/
theorem parseStringFrom_escapeChar (c : Char) (tail acc : List Char) :
    parseStringFrom .ordinary (escapeChar c ++ tail) acc
      = parseStringFrom .ordinary tail (c :: acc) := by
  by_cases h : c.toNat < 32 ∨ c.toNat = 34 ∨ c.toNat = 92
  · have hc : Char.ofNat c.toNat = c := Char.ofNat_toNat c
    generalize c.toNat = k at h hc
    subst hc
    have hk : k < 93 := by omega
    interval_cases k <;> rfl
  · have h1 : ¬ c.toNat < 32 := fun e => h (Or.inl e)
    have h2 : ¬ c.toNat = 34 := fun e => h (Or.inr (Or.inl e))
    have h3 : ¬ c.toNat = 92 := fun e => h (Or.inr (Or.inr e))
    have he : escapeChar c = [c] := by
      unfold escapeChar
      rw [if_neg h2, if_neg h3, if_neg (by omega), if_neg (by omega), if_neg (by omega),
        if_neg (by omega), if_neg (by omega), if_neg h1]
    rw [he]
    show (if c.toNat = 34 then some (acc.reverse, tail)
      else if c.toNat = 92 then parseStringFrom .escaped tail acc
      else if c.toNat < 32 then none
      else parseStringFrom .ordinary tail (c :: acc)) = _
    rw [if_neg h2, if_neg h3, if_neg h1]

/-- Reading the text of a string after its opening quotation mark gives back its
code points. -/
theorem parseStringFrom_quoteChars (s rest acc : List Char) :
    parseStringFrom .ordinary (quoteChars s ++ rest) acc = some (acc.reverse ++ s, rest) := by
  induction s generalizing acc with
  | nil =>
    rw [List.append_nil]
    rfl
  | cons c cs ih =>
    show parseStringFrom .ordinary ((escapeChar c ++ quoteChars cs) ++ rest) acc = _
    rw [List.append_assoc, parseStringFrom_escapeChar, ih, List.reverse_cons,
      List.append_assoc]
    rfl

theorem parseString_quoteChars (s rest : List Char) :
    parseString (quoteChars s ++ rest) = some (s, rest) := by
  unfold parseString
  rw [parseStringFrom_quoteChars]
  rfl

theorem skipWs_stringifyAt (n : Nat) (v : Json) (rest : List Char) :
    skipWs (stringifyAt n v ++ rest) = stringifyAt n v ++ rest := by
  cases v with
  | null => rfl
  | bool b => cases b <;> rfl
  | str s => rfl
  | arr items => cases items <;> rfl
  | obj props =>
    cases props with
    | nil => rfl
    | cons p ps => cases p; rfl

/-- The text of a value starts with a character that is neither white space nor a
closing bracket or brace. -/
theorem stringifyAt_head (n : Nat) (v : Json) :
    ∃ (c : Char) (tail : List Char), stringifyAt n v = c :: tail ∧ c.toNat ≠ 93 := by
  cases v with
  | null => exact ⟨_, _, rfl, by decide⟩
  | bool b => cases b <;> exact ⟨_, _, rfl, by decide⟩
  | str s => exact ⟨_, _, rfl, by decide⟩
  | arr items => cases items <;> exact ⟨_, _, rfl, by decide⟩
  | obj props =>
    cases props with
    | nil => exact ⟨_, _, rfl, by decide⟩
    | cons p ps => cases p; exact ⟨_, _, rfl, by decide⟩

theorem parseValue_ws (fuel : Nat) (c : Char) (l : List Char) (h : isWs c = true) :
    parseValue fuel (c :: l) = parseValue fuel l := by
  cases fuel with
  | zero => rfl
  | succ fuel =>
    have hs : skipWs (c :: l) = skipWs l := by simp [skipWs, h]
    unfold parseValue
    rw [hs]

theorem parseValue_indentOf (fuel n : Nat) (l : List Char) :
    parseValue fuel (indentOf n ++ l) = parseValue fuel l := by
  induction n with
  | zero => rfl
  | succ n ih =>
    have h : indentOf (n + 1) ++ l = Char.ofNat 32 :: (indentOf n ++ l) := by
      simp [indentOf, List.replicate_succ]
    rw [h, parseValue_ws _ _ _ (by decide), ih]

theorem parseElements_eq (fuel : Nat) (input input2 : List Char) (acc : List Json)
    (h : ∀ f, parseValue f input = parseValue f input2) :
    parseElements fuel input acc = parseElements fuel input2 acc := by
  cases fuel with
  | zero => rfl
  | succ fuel =>
    unfold parseElements
    rw [h fuel]

theorem parseMembers_eq (fuel : Nat) (input input2 : List Char) (acc : List (String × Json))
    (h : skipWs input = skipWs input2) :
    parseMembers fuel input acc = parseMembers fuel input2 acc := by
  cases fuel with
  | zero => rfl
  | succ fuel =>
    unfold parseMembers
    rw [h]

theorem parseValue_array (fuel : Nat) (body : List Char) (c : Char) (tail : List Char)
    (hs : skipWs body = c :: tail) (hc : c.toNat ≠ 93) :
    parseValue (fuel + 1) (Char.ofNat 91 :: body)
      = (parseElements fuel (c :: tail) []).map (fun r => (Json.arr r.1, r.2)) := by
  have h0 : skipWs (Char.ofNat 91 :: body) = Char.ofNat 91 :: body := rfl
  unfold parseValue
  simp only [h0, hs]
  rw [if_neg (by decide), if_neg (by decide), if_neg (by decide), if_neg (by decide),
    if_pos (by decide), if_neg hc]

theorem parseElements_comma (fuel : Nat) (input rest rest2 : List Char) (v : Json)
    (acc : List Json) (hv : parseValue fuel input = some (v, rest))
    (hs : skipWs rest = Char.ofNat 44 :: rest2) :
    parseElements (fuel + 1) input acc = parseElements fuel rest2 (v :: acc) := by
  conv_lhs => unfold parseElements
  simp only [hv, hs]
  rw [if_pos (by decide)]

theorem parseElements_close (fuel : Nat) (input rest rest2 : List Char) (v : Json)
    (acc : List Json) (hv : parseValue fuel input = some (v, rest))
    (hs : skipWs rest = Char.ofNat 93 :: rest2) :
    parseElements (fuel + 1) input acc = some ((v :: acc).reverse, rest2) := by
  unfold parseElements
  simp only [hv, hs]
  rw [if_neg (by decide), if_pos (by decide)]

theorem parseValue_object (fuel : Nat) (body : List Char) (c : Char) (tail : List Char)
    (hs : skipWs body = c :: tail) (hc : c.toNat ≠ 125) :
    parseValue (fuel + 1) (Char.ofNat 123 :: body)
      = (parseMembers fuel (c :: tail) []).map (fun r => (Json.obj r.1, r.2)) := by
  have h0 : skipWs (Char.ofNat 123 :: body) = Char.ofNat 123 :: body := rfl
  unfold parseValue
  simp only [h0, hs]
  rw [if_neg (by decide), if_neg (by decide), if_neg (by decide), if_neg (by decide),
    if_neg (by decide), if_pos (by decide), if_neg hc]

/-- Reading one property: the key, the colon and the value. -/
theorem parseMembers_comma (fuel : Nat) (k : String) (afterKey rest rest2 : List Char)
    (v : Json) (acc : List (String × Json))
    (hv : parseValue fuel afterKey = some (v, rest))
    (hs : skipWs rest = Char.ofNat 44 :: rest2) :
    parseMembers (fuel + 1) (quoteJson k ++ (Char.ofNat 58 :: afterKey)) acc
      = parseMembers fuel rest2 ((k, v) :: acc) := by
  have h0 : skipWs (quoteJson k ++ (Char.ofNat 58 :: afterKey))
      = Char.ofNat 34 :: (quoteChars k.toList ++ (Char.ofNat 58 :: afterKey)) := rfl
  have h1 : skipWs (Char.ofNat 58 :: afterKey) = Char.ofNat 58 :: afterKey := rfl
  conv_lhs => unfold parseMembers
  simp only [h0]
  rw [if_pos (by decide), parseString_quoteChars]
  simp only [h1]
  rw [if_pos (by decide)]
  simp only [hv, hs]
  rw [if_pos (by decide)]
  rfl

theorem parseMembers_close (fuel : Nat) (k : String) (afterKey rest rest2 : List Char)
    (v : Json) (acc : List (String × Json))
    (hv : parseValue fuel afterKey = some (v, rest))
    (hs : skipWs rest = Char.ofNat 125 :: rest2) :
    parseMembers (fuel + 1) (quoteJson k ++ (Char.ofNat 58 :: afterKey)) acc
      = some (((k, v) :: acc).reverse, rest2) := by
  have h0 : skipWs (quoteJson k ++ (Char.ofNat 58 :: afterKey))
      = Char.ofNat 34 :: (quoteChars k.toList ++ (Char.ofNat 58 :: afterKey)) := rfl
  have h1 : skipWs (Char.ofNat 58 :: afterKey) = Char.ofNat 58 :: afterKey := rfl
  conv_lhs => unfold parseMembers
  simp only [h0]
  rw [if_pos (by decide), parseString_quoteChars]
  simp only [h1]
  rw [if_pos (by decide)]
  simp only [hv, hs]
  rw [if_neg (by decide), if_pos (by decide)]
  rfl

/-- The reader gives back every value from the text `stringifyAt` writes for it,
and every non-empty list of elements or properties from the text written for it up
to the closing bracket or brace, whatever follows. -/
theorem parse_stringifyAt (fuel : Nat) :
    (∀ (v : Json) (n : Nat) (rest : List Char), weight v ≤ fuel →
      parseValue fuel (stringifyAt n v ++ rest) = some (v, rest))
    ∧ (∀ (x : Json) (xs : List Json) (n m : Nat) (acc : List Json) (rest : List Char),
      weightItems (x :: xs) ≤ fuel →
      parseElements fuel (stringifyAt n x ++ (stringifyItems n xs
          ++ (Char.ofNat 10 :: (indentOf m ++ (Char.ofNat 93 :: rest))))) acc
        = some (acc.reverse ++ x :: xs, rest))
    ∧ (∀ (k : String) (v : Json) (ps : List (String × Json)) (n m : Nat)
        (acc : List (String × Json)) (rest : List Char),
      weightProps ((k, v) :: ps) ≤ fuel →
      parseMembers fuel (quoteJson k ++ (Char.ofNat 58 :: (Char.ofNat 32
          :: (stringifyAt n v ++ (stringifyProps n ps
          ++ (Char.ofNat 10 :: (indentOf m ++ (Char.ofNat 125 :: rest)))))))) acc
        = some (acc.reverse ++ (k, v) :: ps, rest)) := by
  induction fuel with
  | zero =>
    refine ⟨?_, ?_, ?_⟩
    · intro v n rest h
      cases v <;> simp [weight] at h
    · intro x xs n m acc rest h
      simp [weightItems] at h
    · intro k v ps n m acc rest h
      simp [weightProps] at h
  | succ fuel ih =>
    obtain ⟨ihV, ihE, ihM⟩ := ih
    refine ⟨?_, ?_, ?_⟩
    · intro v n rest h
      cases v with
      | null => rfl
      | bool b => cases b <;> rfl
      | str s =>
        show (parseString (quoteChars s.toList ++ rest)).map
          (fun r : List Char × List Char => (Json.str (String.mk r.1), r.2)) = _
        rw [parseString_quoteChars]
        rfl
      | arr items =>
        cases items with
        | nil => rfl
        | cons x xs =>
          have hw : weightItems (x :: xs) ≤ fuel := by
            simp only [weight] at h
            omega
          obtain ⟨c, tail, hhead, hc⟩ := stringifyAt_head (n + 2) x
          have htext : stringifyAt n (.arr (x :: xs)) ++ rest
              = Char.ofNat 91 :: (Char.ofNat 10 :: (indentOf (n + 2) ++ (stringifyAt (n + 2) x
                ++ (stringifyItems (n + 2) xs
                ++ (Char.ofNat 10 :: (indentOf n ++ (Char.ofNat 93 :: rest))))))) := by
            simp [stringifyAt]
          have hskip : skipWs (Char.ofNat 10 :: (indentOf (n + 2) ++ (stringifyAt (n + 2) x
                ++ (stringifyItems (n + 2) xs
                ++ (Char.ofNat 10 :: (indentOf n ++ (Char.ofNat 93 :: rest)))))))
              = c :: (tail ++ (stringifyItems (n + 2) xs
                ++ (Char.ofNat 10 :: (indentOf n ++ (Char.ofNat 93 :: rest))))) := by
            rw [skipWs_newline_indentOf, skipWs_stringifyAt, hhead]
            rfl
          rw [htext, parseValue_array fuel _ c _ hskip hc]
          have hE := ihE x xs (n + 2) n [] rest hw
          rw [hhead] at hE
          rw [show c :: (tail ++ (stringifyItems (n + 2) xs
                ++ (Char.ofNat 10 :: (indentOf n ++ (Char.ofNat 93 :: rest)))))
              = c :: tail ++ (stringifyItems (n + 2) xs
                ++ (Char.ofNat 10 :: (indentOf n ++ (Char.ofNat 93 :: rest)))) from rfl, hE]
          rfl
      | obj props =>
        cases props with
        | nil => rfl
        | cons p ps =>
          obtain ⟨k, v⟩ := p
          have hw : weightProps ((k, v) :: ps) ≤ fuel := by
            simp only [weight] at h
            omega
          have htext : stringifyAt n (.obj ((k, v) :: ps)) ++ rest
              = Char.ofNat 123 :: (Char.ofNat 10 :: (indentOf (n + 2) ++ (quoteJson k
                ++ (Char.ofNat 58 :: (Char.ofNat 32 :: (stringifyAt (n + 2) v
                ++ (stringifyProps (n + 2) ps
                ++ (Char.ofNat 10 :: (indentOf n ++ (Char.ofNat 125 :: rest)))))))))) := by
            simp [stringifyAt]
          have hskip : skipWs (Char.ofNat 10 :: (indentOf (n + 2) ++ (quoteJson k
                ++ (Char.ofNat 58 :: (Char.ofNat 32 :: (stringifyAt (n + 2) v
                ++ (stringifyProps (n + 2) ps
                ++ (Char.ofNat 10 :: (indentOf n ++ (Char.ofNat 125 :: rest))))))))))
              = Char.ofNat 34 :: (quoteChars k.toList
                ++ (Char.ofNat 58 :: (Char.ofNat 32 :: (stringifyAt (n + 2) v
                ++ (stringifyProps (n + 2) ps
                ++ (Char.ofNat 10 :: (indentOf n ++ (Char.ofNat 125 :: rest)))))))) := by
            rw [skipWs_newline_indentOf]
            rfl
          rw [htext, parseValue_object fuel _ _ _ hskip (by decide)]
          have hM := ihM k v ps (n + 2) n [] rest hw
          rw [show Char.ofNat 34 :: (quoteChars k.toList
                ++ (Char.ofNat 58 :: (Char.ofNat 32 :: (stringifyAt (n + 2) v
                ++ (stringifyProps (n + 2) ps
                ++ (Char.ofNat 10 :: (indentOf n ++ (Char.ofNat 125 :: rest))))))))
              = quoteJson k ++ (Char.ofNat 58 :: (Char.ofNat 32 :: (stringifyAt (n + 2) v
                ++ (stringifyProps (n + 2) ps
                ++ (Char.ofNat 10 :: (indentOf n ++ (Char.ofNat 125 :: rest))))))) from rfl, hM]
          rfl
    · intro x xs n m acc rest h
      have hx : weight x ≤ fuel := by
        simp only [weightItems] at h
        omega
      cases xs with
      | nil =>
        have hv := ihV x n (stringifyItems n [] ++ (Char.ofNat 10 :: (indentOf m
          ++ (Char.ofNat 93 :: rest)))) hx
        rw [parseElements_close fuel _ _ rest x acc hv (by
          show skipWs (Char.ofNat 10 :: (indentOf m ++ (Char.ofNat 93 :: rest))) = _
          rw [skipWs_newline_indentOf]
          rfl)]
        simp
      | cons y ys =>
        have hys : weightItems (y :: ys) ≤ fuel := by
          simp only [weightItems] at h ⊢
          omega
        have hv := ihV x n (stringifyItems n (y :: ys) ++ (Char.ofNat 10 :: (indentOf m
          ++ (Char.ofNat 93 :: rest)))) hx
        rw [parseElements_comma fuel _ _ (Char.ofNat 10 :: (indentOf n ++ (stringifyAt n y
            ++ (stringifyItems n ys ++ (Char.ofNat 10 :: (indentOf m
            ++ (Char.ofNat 93 :: rest))))))) x acc hv (by simp [stringifyItems, skipWs, isWs])]
        rw [parseElements_eq fuel _ (stringifyAt n y ++ (stringifyItems n ys
            ++ (Char.ofNat 10 :: (indentOf m ++ (Char.ofNat 93 :: rest))))) _ (by
          intro f
          rw [parseValue_ws _ _ _ (by decide), parseValue_indentOf])]
        rw [ihE y ys n m (x :: acc) rest hys]
        simp
    · intro k v ps n m acc rest h
      have hx : weight v ≤ fuel := by
        simp only [weightProps] at h
        omega
      cases ps with
      | nil =>
        have hv : parseValue fuel (Char.ofNat 32 :: (stringifyAt n v ++ (stringifyProps n []
            ++ (Char.ofNat 10 :: (indentOf m ++ (Char.ofNat 125 :: rest))))))
            = some (v, stringifyProps n [] ++ (Char.ofNat 10 :: (indentOf m
              ++ (Char.ofNat 125 :: rest)))) := by
          rw [parseValue_ws _ _ _ (by decide)]
          exact ihV v n _ hx
        rw [parseMembers_close fuel k _ _ rest v acc hv (by
          show skipWs (Char.ofNat 10 :: (indentOf m ++ (Char.ofNat 125 :: rest))) = _
          rw [skipWs_newline_indentOf]
          rfl)]
        simp
      | cons q qs =>
        obtain ⟨k2, v2⟩ := q
        have hqs : weightProps ((k2, v2) :: qs) ≤ fuel := by
          simp only [weightProps] at h ⊢
          omega
        have hv : parseValue fuel (Char.ofNat 32 :: (stringifyAt n v
            ++ (stringifyProps n ((k2, v2) :: qs)
            ++ (Char.ofNat 10 :: (indentOf m ++ (Char.ofNat 125 :: rest))))))
            = some (v, stringifyProps n ((k2, v2) :: qs) ++ (Char.ofNat 10 :: (indentOf m
              ++ (Char.ofNat 125 :: rest)))) := by
          rw [parseValue_ws _ _ _ (by decide)]
          exact ihV v n _ hx
        rw [parseMembers_comma fuel k _ _ (Char.ofNat 10 :: (indentOf n ++ (quoteJson k2
            ++ (Char.ofNat 58 :: (Char.ofNat 32 :: (stringifyAt n v2
            ++ (stringifyProps n qs ++ (Char.ofNat 10 :: (indentOf m
            ++ (Char.ofNat 125 :: rest))))))))))  v acc hv (by simp [stringifyProps, skipWs, isWs])]
        rw [parseMembers_eq fuel _ (quoteJson k2
            ++ (Char.ofNat 58 :: (Char.ofNat 32 :: (stringifyAt n v2
            ++ (stringifyProps n qs ++ (Char.ofNat 10 :: (indentOf m
            ++ (Char.ofNat 125 :: rest)))))))) _ (by rw [skipWs_newline_indentOf])]
        rw [ihM k2 v2 qs n m ((k, v) :: acc) rest hqs]
        simp

mutual

theorem weight_le_length :
    ∀ (v : Json) (n : Nat), weight v ≤ (stringifyAt n v).length
  | .null, _ => by simp [weight, stringifyAt]
  | .bool true, _ => by simp [weight, stringifyAt]
  | .bool false, _ => by simp [weight, stringifyAt]
  | .str s, _ => by simp [weight, stringifyAt, quoteJson]
  | .arr [], _ => by simp [weight, weightItems, stringifyAt]
  | .arr (x :: xs), n => by
    have h1 := weight_le_length x (n + 2)
    have h2 := weightItems_le_length xs (n + 2)
    simp only [weight, weightItems, stringifyAt, List.length_append, List.length_cons,
      List.length_nil]
    omega
  | .obj [], _ => by simp [weight, weightProps, stringifyAt]
  | .obj ((k, v) :: ps), n => by
    have h1 := weight_le_length v (n + 2)
    have h2 := weightProps_le_length ps (n + 2)
    simp only [weight, weightProps, stringifyAt, List.length_append, List.length_cons,
      List.length_nil]
    omega
theorem weightItems_le_length :
    ∀ (xs : List Json) (n : Nat), weightItems xs ≤ (stringifyItems n xs).length
  | [], _ => Nat.zero_le _
  | x :: xs, n => by
    have h1 := weight_le_length x n
    have h2 := weightItems_le_length xs n
    simp only [weightItems, stringifyItems, List.length_append, List.length_cons,
      List.length_nil]
    omega
theorem weightProps_le_length :
    ∀ (ps : List (String × Json)) (n : Nat), weightProps ps ≤ (stringifyProps n ps).length
  | [], _ => Nat.zero_le _
  | (k, v) :: ps, n => by
    have h1 := weight_le_length v n
    have h2 := weightProps_le_length ps n
    simp only [weightProps, stringifyProps, List.length_append, List.length_cons,
      List.length_nil]
    omega
end

/-- The reader gives back every value from the text `stringify` writes for it. -/
theorem parseValue_stringify (v : Json) :
    parseValue ((stringify v).toList.length + 1) (stringify v).toList = some (v, []) := by
  have h := (parse_stringifyAt ((stringifyAt 0 v).length + 1)).1 v 0 []
    (Nat.le_succ_of_le (weight_le_length v 0))
  rw [List.append_nil] at h
  exact h

/-- Parsing the text written for a plain value gives the value back. -/
theorem parseJson_stringify (v : Json) (hplain : plain v = true) :
    parseJson (stringify v) = some v := by
  unfold parseJson
  rw [parseValue_stringify]
  simp [skipWs, hplain]

/-- Whatever parses from the text written for a value is that value. -/
theorem parseJson_stringify_eq (v w : Json) (h : parseJson (stringify w) = some v) :
    v = w := by
  unfold parseJson at h
  rw [parseValue_stringify] at h
  simp only at h
  split at h
  · injection h with h
    exact h.symm
  · exact absurd h (by simp)

/-- A parsed value is plain. -/
theorem plain_of_parseJson (data : String) (v : Json) (h : parseJson data = some v) :
    plain v = true := by
  unfold parseJson at h
  cases hp : parseValue (data.toList.length + 1) data.toList with
  | none =>
    rw [hp] at h
    exact absurd h (by simp)
  | some r =>
    obtain ⟨w, rest⟩ := r
    rw [hp] at h
    simp only at h
    split at h
    · next hc =>
      injection h with h
      subst h
      simp only [Bool.and_eq_true] at hc
      exact hc.2
    · exact absurd h (by simp)

set_option maxRecDepth 100000 in
/-- Counterexample to C18 as stated: the compact text of a collection of one task
is a valid document; loading it gives the collection, and saving the collection
back succeeds but leaves a document whose content differs from the original. -/
theorem compact_document_rewritten :
    readTodosText ⟨some (stringifyCompact sampleJson), true⟩ = .ok sampleJson
    ∧ writeTodosText ⟨some (stringifyCompact sampleJson), true⟩ sampleJson
        = .ok ⟨some (stringify sampleJson), true⟩
    ∧ stringify sampleJson ≠ stringifyCompact sampleJson :=
  ⟨rfl, rfl, by decide⟩


/-- C18 (amended): round trip of the store on the text of the document: for every
valid document on a writable disk, saving what was just loaded succeeds and writes
the two-space text of the loaded collection; a later load returns the same
collection, and a further save of it leaves the document as it then is; when the
document is in the layout the store writes (it is the text `stringify` gives for
some collection) the save leaves the disk, content included, exactly as it was.
And loading after saving any collection returns that collection. -/
theorem store_roundtrip (d : TextDisk) (data : String) (todos : Json)
    (hdata : d.content = some data) (hw : d.writable = true)
    (hread : readTodosText d = .ok todos) :
    (∃ d1 : TextDisk,
      writeTodosText d todos = .ok d1
      ∧ d1.content = some (stringify todos)
      ∧ readTodosText d1 = .ok todos
      ∧ writeTodosText d1 todos = .ok d1
      ∧ ((∃ w : Json, data = stringify w) → d1 = d))
    ∧ (∀ (saved : Json) (d0 d2 : TextDisk), plain saved = true →
        writeTodosText d0 saved = .ok d2 →
        readTodosText d2 = .ok saved ∧ writeTodosText d2 saved = .ok d2) := by
  have hparse : parseJson data = some todos := by
    unfold readTodosText at hread
    rw [hdata] at hread
    cases hp : parseJson data with
    | none =>
      simp only [hp] at hread
      exact absurd hread (by simp)
    | some v =>
      simp only [hp, Except.ok.injEq] at hread
      rw [hread]
  have hplain : plain todos = true := plain_of_parseJson data todos hparse
  have hsaved : ∀ (saved : Json) (d0 d2 : TextDisk), plain saved = true →
      writeTodosText d0 saved = .ok d2 →
      readTodosText d2 = .ok saved ∧ writeTodosText d2 saved = .ok d2 := by
    intro saved d0 d2 hp h
    unfold writeTodosText at h
    by_cases hw0 : d0.writable = true
    · rw [if_pos hw0] at h
      injection h with h
      subst h
      constructor
      · simp [readTodosText, parseJson_stringify saved hp]
      · unfold writeTodosText
        rw [if_pos hw0]
    · rw [if_neg hw0] at h
      exact absurd h (by simp)
  have hwrite : writeTodosText d todos = .ok { d with content := some (stringify todos) } := by
    unfold writeTodosText
    rw [if_pos hw]
  refine ⟨⟨{ d with content := some (stringify todos) }, hwrite, rfl,
    (hsaved todos d _ hplain hwrite).1, (hsaved todos d _ hplain hwrite).2, ?_⟩, hsaved⟩
  rintro ⟨w, hlayout⟩
  have hw2 : todos = w := parseJson_stringify_eq todos w (by rw [← hlayout]; exact hparse)
  cases d
  simp only at hdata
  simp [hdata, hlayout, hw2]

set_option maxRecDepth 100000 in
/-- Witness for C18 (amended): a disk holding the two-space text of the sample
collection; saving what was loaded from it gives back the same disk. -/
theorem store_roundtrip_witness :
    ∃ d1 : TextDisk,
      writeTodosText ⟨some (stringify sampleJson), true⟩ sampleJson = .ok d1
      ∧ d1 = ⟨some (stringify sampleJson), true⟩ := by
  obtain ⟨⟨d1, h1, -, -, -, h5⟩, -⟩ := store_roundtrip ⟨some (stringify sampleJson), true⟩
    (stringify sampleJson) sampleJson rfl rfl rfl
  exact ⟨d1, h1, h5 ⟨sampleJson, rfl⟩⟩

/-! ## Storage failures -/

/-- C19: for each of the five handlers, whenever loading the document fails the
response is 500 with the fixed message of the operation, whatever the underlying
error, and the disk is left as it was; whenever the document loads but cannot be
saved, createTodo on a valid input, updateTodo on an existing id with a body that
passes validation, and deleteTodo on an existing id respond 500 with the same fixed
messages and leave the disk as it was. -/
theorem storage_failure_500 (dateOf : JVal → Option Int) (d : Disk) :
    (∀ e : StorageError, readTodos d = .error e →
      (∀ q : Query, getAllTodos dateOf d q = (⟨500, .error "Failed to retrieve todos"⟩, d))
      ∧ (∀ id : String, getTodoById d id = (⟨500, .error "Failed to retrieve todo"⟩, d))
      ∧ (∀ (uuid now : String) (body : Body), body.title.truthy = true →
          isPriority body.priority = true → isStatus body.status = true →
          createTodo d uuid now body = (⟨500, .error "Failed to create todo"⟩, d))
      ∧ (∀ (id now : String) (body : Body),
          updateTodo d id now body = (⟨500, .error "Failed to update todo"⟩, d))
      ∧ (∀ id : String, deleteTodo d id = (⟨500, .error "Failed to delete todo"⟩, d)))
    ∧ (∀ todos : List Todo, d.doc = .tasks todos → d.writable = false →
      (∀ (uuid now : String) (body : Body), body.title.truthy = true →
          isPriority body.priority = true → isStatus body.status = true →
          createTodo d uuid now body = (⟨500, .error "Failed to create todo"⟩, d))
      ∧ (∀ (id now : String) (body : Body), (∃ t ∈ todos, t.id = id) →
          (body.priority.truthy = true → isPriority body.priority = true) →
          (body.status.truthy = true → isStatus body.status = true) →
          updateTodo d id now body = (⟨500, .error "Failed to update todo"⟩, d))
      ∧ (∀ id : String, (∃ t ∈ todos, t.id = id) →
          deleteTodo d id = (⟨500, .error "Failed to delete todo"⟩, d))) := by
  constructor
  · intro e he
    refine ⟨?_, ?_, ?_, ?_, ?_⟩
    · intro q
      simp [getAllTodos, he]
    · intro id
      simp [getTodoById, he]
    · intro uuid now body ht hp hs
      rw [createTodo_valid d uuid now body ht hp hs]
      simp [he]
    · intro id now body
      simp [updateTodo, he]
    · intro id
      simp [deleteTodo, he]
  · intro todos hdoc hw
    refine ⟨?_, ?_, ?_⟩
    · intro uuid now body ht hp hs
      rw [createTodo_valid d uuid now body ht hp hs]
      simp [readTodos, writeTodos, hdoc, hw]
    · intro id now body hex hp hs
      rcases updateTodo_cases d id now body with ⟨code, msg, hcode, heq⟩ | ⟨_, _, _, _, hw2, _⟩
      · obtain ⟨i, old, hidx, hold, -⟩ := findIndex_of_mem (fun t : Todo => t.id == id) todos (by
          obtain ⟨t, ht, hid⟩ := hex
          exact ⟨t, ht, by simp [hid]⟩)
        unfold updateTodo
        simp only [readTodos, hdoc, hidx, hold, writeTodos, hw]
        rw [includes_priority_iff, includes_status_iff]
        have h3 : (body.priority.truthy && !isPriority body.priority) = false := by
          cases ha : body.priority.truthy <;> cases hb : isPriority body.priority <;> simp_all
        have h4 : (body.status.truthy && !isStatus body.status) = false := by
          cases ha : body.status.truthy <;> cases hb : isStatus body.status <;> simp_all
        simp [h3, h4]
      · rw [hw] at hw2
        exact absurd hw2 (by decide)
    · intro id hex
      have hlen : ¬ (todos.filter (fun t => t.id != id)).length = todos.length :=
        fun h => (filter_ne_length_iff todos id).mp h hex
      unfold deleteTodo
      simp only [readTodos, hdoc]
      rw [if_neg hlen]
      simp [writeTodos, hw]

/-- Witness for C19: a missing document and an unparseable one raise different
errors, and the list handler answers both with the same response. -/
theorem storage_failure_500_witness :
    readTodos ⟨.missing, true⟩ ≠ readTodos ⟨.garbage "oops", true⟩
    ∧ (getAllTodos dateOfNumber ⟨.missing, true⟩ ⟨.undefined, .undefined, .undefined⟩).1
      = (getAllTodos dateOfNumber ⟨.garbage "oops", true⟩ ⟨.undefined, .undefined, .undefined⟩).1 := by
  refine ⟨by simp [readTodos], ?_⟩
  rw [((storage_failure_500 dateOfNumber ⟨.missing, true⟩).1 .enoent rfl).1,
    ((storage_failure_500 dateOfNumber ⟨.garbage "oops", true⟩).1 (.syntaxError "oops") rfl).1]

/-! ## Startup initialisation -/

/-- C20: startup initialisation: if the document does not exist (and the data
directory and the file can be written), initializeDataFile creates it holding the
empty collection, so that a subsequent load returns the empty list; if the document
already exists, valid or not, initializeDataFile leaves the disk exactly as it
was. -/
theorem initializeDataFile_spec (d : Disk) :
    (d.doc = .missing → d.writable = true →
      (initializeDataFile true d).doc = .tasks []
      ∧ readTodos (initializeDataFile true d) = .ok [])
    ∧ (d.doc ≠ .missing → ∀ mkdirOk : Bool, initializeDataFile mkdirOk d = d) := by
  constructor
  · intro hdoc hw
    simp [initializeDataFile, hdoc, hw, readTodos]
  · intro hdoc mkdirOk
    unfold initializeDataFile
    cases mkdirOk
    · rfl
    · cases hd : d.doc with
      | missing => exact absurd hd hdoc
      | garbage raw => simp
      | tasks ts => simp

/-- Witness for C20: a missing document becomes the empty collection, and the
sample disk is left alone. -/
theorem initializeDataFile_spec_witness :
    readTodos (initializeDataFile true ⟨.missing, true⟩) = .ok []
    ∧ initializeDataFile true sampleDisk = sampleDisk :=
  ⟨((initializeDataFile_spec ⟨.missing, true⟩).1 rfl rfl).2,
   (initializeDataFile_spec sampleDisk).2 (by decide) true⟩

/-! ## Frame of the update and of the reads -/

theorem get?_set_other {α : Type} (l : List α) (i j : Nat) (b : α) (h : j ≠ i) :
    (l.set i b).get? j = l.get? j := by
  induction l generalizing i j with
  | nil => simp
  | cons c l ih =>
    cases i with
    | zero =>
      cases j with
      | zero => exact absurd rfl h
      | succ j => simp
    | succ i =>
      cases j with
      | zero => simp
      | succ j => simpa using ih i j (fun e => h (by rw [e]))

/-- C23: frame of update: for every document, id and body, whenever updateTodo
succeeds (responds 200) the stored collection keeps its length, the updated task
sits in the slot of the task it replaces, every other slot holds the task it held
before, and the updated task has the id, the createdAt and the further properties
of the task it replaces: only title, description, dueDate, priority, status and
updatedAt can differ. -/
theorem updateTodo_frame (d : Disk) (id now : String) (body : Body)
    (h : (updateTodo d id now body).1.status = 200) :
    ∃ (todos after : List Todo) (i : Nat) (old updated : Todo),
      d.doc = .tasks todos
      ∧ updateTodo d id now body = (⟨200, .item updated⟩, { d with doc := .tasks after })
      ∧ after.length = todos.length
      ∧ todos.get? i = some old
      ∧ after.get? i = some updated
      ∧ (∀ j : Nat, j ≠ i → after.get? j = todos.get? j)
      ∧ updated.id = old.id
      ∧ updated.createdAt = old.createdAt
      ∧ updated.others = old.others
      ∧ updated = { old with title := updated.title, description := updated.description,
                             dueDate := updated.dueDate, priority := updated.priority,
                             status := updated.status, updatedAt := updated.updatedAt } := by
  obtain ⟨todos, i, old, h1, -, -, h4, -, h6⟩ := updateTodo_200 d id now body h
  exact ⟨todos, todos.set i (mergeTodo old now body), i, old, mergeTodo old now body, h1, h6,
    List.length_set _ _ _, h4, get?_set_self todos i old _ h4,
    fun j hj => get?_set_other todos i j _ hj, rfl, rfl, rfl, rfl⟩

/-- Witness for C23: updating the sample task `c` (slot 2) leaves slots 0, 1 and 3
as they were. -/
theorem updateTodo_frame_witness :
    ∃ (todos after : List Todo) (i : Nat) (old updated : Todo),
      sampleDisk.doc = .tasks todos
      ∧ updateTodo sampleDisk "c" "2024-02-02T00:00:00.000Z"
          { emptyBody with title := .str "Buy bread", status := .str "done" }
          = (⟨200, .item updated⟩, { sampleDisk with doc := .tasks after })
      ∧ after.length = todos.length
      ∧ todos.get? i = some old
      ∧ after.get? i = some updated
      ∧ (∀ j : Nat, j ≠ i → after.get? j = todos.get? j) := by
  obtain ⟨todos, after, i, old, updated, h1, h2, h3, h4, h5, h6, -⟩ :=
    updateTodo_frame sampleDisk "c" "2024-02-02T00:00:00.000Z"
      { emptyBody with title := .str "Buy bread", status := .str "done" } (by decide)
  exact ⟨todos, after, i, old, updated, h1, h2, h3, h4, h5, h6⟩

/-- C24: for every stored collection and every query, getAllTodos responds 200
with a permutation of the filtered tasks whatever the sort key, so sorting never
drops, duplicates or alters a task; and when the sort key is absent or is neither
"dueDate" nor "priority" the filtered tasks are returned in stored order. -/
theorem getAllTodos_perm (dateOf : JVal → Option Int) (d : Disk) (todos : List Todo)
    (q : Query) (hdoc : d.doc = .tasks todos) :
    ∃ result : List Todo,
      getAllTodos dateOf d q = (⟨200, .list result⟩, d)
      ∧ result.Perm (specFilter q.status q.priority todos)
      ∧ (∀ t : Todo, t ∈ result ↔ t ∈ specFilter q.status q.priority todos)
      ∧ result.length = (specFilter q.status q.priority todos).length
      ∧ (q.sort ≠ .str "dueDate" → q.sort ≠ .str "priority" →
          result = specFilter q.status q.priority todos) := by
  have hf := codeFilter_eq_specFilter q.status q.priority todos
  by_cases h1 : q.sort = .str "dueDate"
  · refine ⟨sort (fun a b => jsSub (dateOf a.dueDate) (dateOf b.dueDate))
      (specFilter q.status q.priority todos), ?_, sort_perm _ _, fun t => (sort_perm _ _).mem_iff,
      (sort_perm _ _).length_eq, fun hne => absurd h1 hne⟩
    simp only [getAllTodos, readTodos, hdoc, h1] at hf ⊢
    simp [hf]
  · by_cases h2 : q.sort = .str "priority"
    · refine ⟨sort (fun a b => jsSub (priorityOrder a.priority) (priorityOrder b.priority))
        (specFilter q.status q.priority todos), ?_, sort_perm _ _,
        fun t => (sort_perm _ _).mem_iff, (sort_perm _ _).length_eq, fun _ hne => absurd h2 hne⟩
      simp only [getAllTodos, readTodos, hdoc, h2] at hf ⊢
      simp [hf]
    · refine ⟨specFilter q.status q.priority todos, ?_, List.Perm.refl _, fun t => Iff.rfl, rfl,
        fun _ _ => rfl⟩
      simp only [getAllTodos, readTodos, hdoc] at hf ⊢
      simp [hf, h1, h2]

/-- Witness for C24: the sample collection listed with the unknown sort key
"title" comes back in stored order. -/
theorem getAllTodos_perm_witness :
    ∃ result : List Todo,
      getAllTodos dateOfNumber sampleDisk ⟨.undefined, .undefined, .str "title"⟩
        = (⟨200, .list result⟩, sampleDisk)
      ∧ result = sampleTodos := by
  obtain ⟨result, h1, -, -, -, h5⟩ := getAllTodos_perm dateOfNumber sampleDisk sampleTodos
    ⟨.undefined, .undefined, .str "title"⟩ rfl
  exact ⟨result, h1, (h5 (by decide) (by decide)).trans (by decide)⟩

/-- C25: the read operations are read-only: for every disk, readable or not, every
query (any filter and any sort key) and every id, the disk after getAllTodos and
after getTodoById is the disk before it, and so is the stored collection. -/
theorem reads_leave_disk (dateOf : JVal → Option Int) (d : Disk) :
    (∀ q : Query, (getAllTodos dateOf d q).2 = d)
    ∧ (∀ id : String, (getTodoById d id).2 = d)
    ∧ (∀ (q : Query) (todos : List Todo), d.doc = .tasks todos →
        (getAllTodos dateOf d q).2.doc = .tasks todos)
    ∧ (∀ (id : String) (todos : List Todo), d.doc = .tasks todos →
        (getTodoById d id).2.doc = .tasks todos) := by
  have hall : ∀ q : Query, (getAllTodos dateOf d q).2 = d := by
    intro q
    unfold getAllTodos
    cases readTodos d <;> rfl
  have hone : ∀ id : String, (getTodoById d id).2 = d := by
    intro id
    unfold getTodoById
    cases readTodos d with
    | error e => rfl
    | ok todos =>
      simp only
      cases todos.find? (fun t => t.id == id) <;> rfl
  exact ⟨hall, hone, fun q todos hd => by rw [hall q]; exact hd,
    fun id todos hd => by rw [hone id]; exact hd⟩

/-- Witness for C25: listing the sample disk sorted by priority leaves it holding
the sample collection in its stored order. -/
theorem reads_leave_disk_witness :
    (getAllTodos dateOfNumber sampleDisk ⟨.undefined, .undefined, .str "priority"⟩).2.doc
      = .tasks sampleTodos :=
  (reads_leave_disk dateOfNumber sampleDisk).2.2.1 ⟨.undefined, .undefined, .str "priority"⟩
    sampleTodos rfl

/-! ## Interleaved creates -/

/-- The two stretches of a create request run back to back are the handler
`createTodo`. -/
theorem createStep_refines (d : Disk) (uuid now : String) (body : Body) :
    createStep (createStep d (.start uuid now body)).2 (createStep d (.start uuid now body)).1
      = (.responded (createTodo d uuid now body).1, (createTodo d uuid now body).2) := by
  unfold createTodo
  simp only [createStep]
  by_cases ht : body.title.truthy = true
  · by_cases hp : includes ["high", "medium", "low"] body.priority = true
    · by_cases hs : includes ["open", "done"] body.status = true
      · simp only [ht, hp, hs, Bool.not_true, Bool.false_eq_true, if_false]
        cases hr : readTodos d with
        | error e => simp [createStep]
        | ok todos =>
          simp only [createStep, newTodoOf]
          cases hw : writeTodos d (todos ++ [⟨uuid, body.title, body.description.orElse (.str ""),
              body.dueDate, body.priority.getString, body.status.getString, now, none, []⟩]) with
          | error e => rfl
          | ok d1 => rfl
      · simp [ht, hp, hs, createStep]
    · simp [ht, hp, createStep]
  · simp [ht, createStep]

theorem createStep_start_valid (d : Disk) (todos : List Todo) (uuid now : String) (body : Body)
    (hdoc : d.doc = .tasks todos) (ht : body.title.truthy = true)
    (hp : isPriority body.priority = true) (hs : isStatus body.status = true) :
    createStep d (.start uuid now body) = (.loaded todos (newTodoOf uuid now body), d) := by
  simp only [createStep]
  rw [includes_priority_iff, includes_status_iff]
  simp [ht, hp, hs, readTodos, hdoc]

/-- C21: last write wins under interleaving: for every stored collection S on a
writable disk and two valid create requests A and B, under the schedule in which A
loads, B loads, A saves, B saves, both requests hold S in memory before either
saves, both respond 201 with their task, and the final stored collection is S plus
the task of B only: the task of A (its id being fresh and distinct from that of B)
is stored nowhere, and neither response reports a conflict. Run one after the
other instead, the same two requests leave S plus both tasks. -/
theorem lost_update_schedule (todos : List Todo) (uuidA nowA uuidB nowB : String)
    (bodyA bodyB : Body)
    (htA : bodyA.title.truthy = true) (hpA : isPriority bodyA.priority = true)
    (hsA : isStatus bodyA.status = true)
    (htB : bodyB.title.truthy = true) (hpB : isPriority bodyB.priority = true)
    (hsB : isStatus bodyB.status = true)
    (hfresh : ∀ t ∈ todos, t.id ≠ uuidA) (hne : uuidA ≠ uuidB) :
    runRace ⟨⟨.tasks todos, true⟩, .start uuidA nowA bodyA, .start uuidB nowB bodyB⟩
        [.first, .second]
      = ⟨⟨.tasks todos, true⟩, .loaded todos (newTodoOf uuidA nowA bodyA),
          .loaded todos (newTodoOf uuidB nowB bodyB)⟩
    ∧ runRace ⟨⟨.tasks todos, true⟩, .start uuidA nowA bodyA, .start uuidB nowB bodyB⟩
        [.first, .second, .first, .second]
      = ⟨⟨.tasks (todos ++ [newTodoOf uuidB nowB bodyB]), true⟩,
          .responded ⟨201, .item (newTodoOf uuidA nowA bodyA)⟩,
          .responded ⟨201, .item (newTodoOf uuidB nowB bodyB)⟩⟩
    ∧ newTodoOf uuidA nowA bodyA ∉ todos ++ [newTodoOf uuidB nowB bodyB]
    ∧ runRace ⟨⟨.tasks todos, true⟩, .start uuidA nowA bodyA, .start uuidB nowB bodyB⟩
        [.first, .first, .second, .second]
      = ⟨⟨.tasks (todos ++ [newTodoOf uuidA nowA bodyA] ++ [newTodoOf uuidB nowB bodyB]), true⟩,
          .responded ⟨201, .item (newTodoOf uuidA nowA bodyA)⟩,
          .responded ⟨201, .item (newTodoOf uuidB nowB bodyB)⟩⟩ := by
  have hA : ∀ l : List Todo, createStep ⟨.tasks l, true⟩ (.start uuidA nowA bodyA)
      = (.loaded l (newTodoOf uuidA nowA bodyA), ⟨.tasks l, true⟩) :=
    fun l => createStep_start_valid _ l uuidA nowA bodyA rfl htA hpA hsA
  have hB : ∀ l : List Todo, createStep ⟨.tasks l, true⟩ (.start uuidB nowB bodyB)
      = (.loaded l (newTodoOf uuidB nowB bodyB), ⟨.tasks l, true⟩) :=
    fun l => createStep_start_valid _ l uuidB nowB bodyB rfl htB hpB hsB
  have hsave : ∀ (l held : List Todo) (t : Todo), createStep ⟨.tasks l, true⟩ (.loaded held t)
      = (.responded ⟨201, .item t⟩, ⟨.tasks (held ++ [t]), true⟩) := by
    intro l held t
    simp [createStep, writeTodos]
  refine ⟨?_, ?_, ?_, ?_⟩
  · simp [runRace, raceStep, hA, hB]
  · simp [runRace, raceStep, hA, hB, hsave]
  · intro hmem
    rcases List.mem_append.mp hmem with hmem | hmem
    · exact hfresh _ hmem rfl
    · rw [List.mem_singleton] at hmem
      exact hne (congrArg Todo.id hmem)
  · simp [runRace, raceStep, hA, hB, hsave]

/-- Witness for C21: two creates racing on the sample disk; the collection ends as
the four sample tasks plus the task of the second request. -/
theorem lost_update_schedule_witness :
    runRace ⟨⟨.tasks sampleTodos, true⟩,
        .start "u1" "2024-02-02T00:00:00.000Z"
          { emptyBody with title := .str "Task A", priority := .str "high", status := .str "open" },
        .start "u2" "2024-02-02T00:00:00.001Z"
          { emptyBody with title := .str "Task B", priority := .str "low", status := .str "open" }⟩
        [.first, .second, .first, .second]
      = ⟨⟨.tasks (sampleTodos ++ [newTodoOf "u2" "2024-02-02T00:00:00.001Z"
            { emptyBody with title := .str "Task B", priority := .str "low",
                             status := .str "open" }]), true⟩,
          .responded ⟨201, .item (newTodoOf "u1" "2024-02-02T00:00:00.000Z"
            { emptyBody with title := .str "Task A", priority := .str "high",
                             status := .str "open" })⟩,
          .responded ⟨201, .item (newTodoOf "u2" "2024-02-02T00:00:00.001Z"
            { emptyBody with title := .str "Task B", priority := .str "low",
                             status := .str "open" })⟩⟩ :=
  (lost_update_schedule sampleTodos "u1" "2024-02-02T00:00:00.000Z" "u2"
    "2024-02-02T00:00:00.001Z"
    { emptyBody with title := .str "Task A", priority := .str "high", status := .str "open" }
    { emptyBody with title := .str "Task B", priority := .str "low", status := .str "open" }
    (by decide) (by decide) (by decide) (by decide) (by decide) (by decide) (by decide)
    (by decide)).2.1

/-! ## The client form -/

/-- The title check of `validate` passes exactly when the trimmed title has at
least 3 UTF-16 code units. -/
theorem validateErrors_title_none_iff (c : Clock) (formData : FormData) :
    (validateErrors c formData).title = none ↔ 3 ≤ jsLength (jsTrim formData.title.toList) := by
  simp only [validateErrors]
  cases htr : jsTrim formData.title.toList with
  | nil => simp [jsLength]
  | cons a l =>
    simp only [List.isEmpty_cons, Bool.false_eq_true, if_false]
    constructor
    · intro h
      by_contra hlt
      rw [if_pos (by omega)] at h
      exact absurd h (by simp)
    · intro h
      rw [if_neg (by omega)]

/-- East of Greenwich, or on it, the due-date check of `validate` is the
comparison of calendar days: a date passes exactly when it is today's local date
or a later one. -/
theorem validate_iff_of_offset_nonneg (c : Clock) (formData : FormData)
    (h0 : 0 ≤ c.offsetMinutes) (h1 : c.offsetMinutes < 1440) :
    validate c formData = true ↔
      (3 ≤ jsLength (jsTrim formData.title.toList)
        ∧ (formData.dueDate = .empty
          ∨ ∃ y m dd : Nat, formData.dueDate = .day y m dd ∧ localDay c ≤ daysFromCivil y m dd)) := by
  unfold validate
  rw [Bool.and_eq_true, Option.isNone_iff_eq_none, Option.isNone_iff_eq_none,
    validateErrors_title_none_iff]
  apply and_congr Iff.rfl
  cases hd : formData.dueDate with
  | empty => simp [validateErrors, hd]
  | day y m dd =>
    simp only [validateErrors, hd, dateOfDay, localMidnight, localDay]
    constructor
    · intro h
      refine Or.inr ⟨y, m, dd, rfl, ?_⟩
      by_contra hlt
      rw [if_pos (by omega)] at h
      exact absurd h (by simp)
    · rintro (h | ⟨y2, m2, d2, heq, h⟩)
      · exact absurd h (by simp)
      · injection heq with e1 e2 e3
        subst e1 e2 e3
        rw [if_neg (by omega)]

/-- C22 (the code at the failing input): at 15:00 UTC on 2024-05-10 in a browser
five hours west of Greenwich the local date is 2024-05-10 (it is 10:00 there), the
form has the title "Buy milk" and the due date 2024-05-10, which is today, and yet
validate rejects the form with "Due date cannot be in the past": the chosen date is
read as midnight UTC, five hours before the local midnight it is compared with.
The same form is accepted at the same instant in a browser on UTC. -/
theorem validate_rejects_today_west_of_utc :
    localDay ⟨1715353200000, -300⟩ = daysFromCivil 2024 5 10
    ∧ 3 ≤ jsLength (jsTrim "Buy milk".toList)
    ∧ validate ⟨1715353200000, -300⟩ ⟨"Buy milk", "", .day 2024 5 10, "medium", "open"⟩ = false
    ∧ validateErrors ⟨1715353200000, -300⟩ ⟨"Buy milk", "", .day 2024 5 10, "medium", "open"⟩
        = ⟨none, some "Due date cannot be in the past"⟩
    ∧ validate ⟨1715353200000, 0⟩ ⟨"Buy milk", "", .day 2024 5 10, "medium", "open"⟩ = true := by
  refine ⟨by decide, by decide, by decide, by decide, by decide⟩

end Motadata
